import Mathlib

/-!
# OpenID Connect authorization-code core of `selfservice/strategy/oidc/oauth2.go`

A shallow embedding of the Go file: the issued token with its lazily resolved
claims, the assembly of the encrypted credential bundle, the authorization URL, the
code-for-token exchange and the callback error check.

Conventions of the embedding.

* A Go pointer or interface value that a collaborator hands back at run time, and
  so may be nil, is an `Option`; the Go pair `(value, error)` is a pair whose second
  component is `Option Error`. The receivers, the collaborators `op` and `c`
  themselves and the request are not nil.
* The collaborators (provider, cipher, token endpoint) are functions over an
  arbitrary state `σ` of the outside world, so that two calls with the same
  arguments may answer differently.
* Every call to a collaborator is recorded, with its answer, at the end of the
  trace of the `World`; the trace is what statements about "is invoked" read.
* A method with a pointer receiver takes the receiver's state and returns the
  new one.
-/

namespace oidc

/-! ## Values of the Go runtime and of the libraries -/

/-- Go `context.Context`: the functions of this file only hand it on. -/
structure Context where
  id : Nat
deriving DecidableEq, Repr

/-- The fields of `herodot.DefaultError` that the file touches. -/
structure DefaultError where
  CodeField : Nat
  StatusField : String
  ErrorField : String
  ReasonField : String
deriving DecidableEq, Repr

/-- Go `error` values: errors raised by a collaborator, a herodot error, and an
error wrapped by `errors.WithStack`. The nil error is `none : Option Error`. -/
inductive Error where
  | external (msg : String)
  | herodot (e : DefaultError)
  | withStack (inner : Error)
deriving DecidableEq, Repr

/-- The reason carried by an error, looked up through `WithStack` wrappers. -/
def Error.Reason : Error → String
  | .external _ => ""
  | .herodot e => e.ReasonField
  | .withStack inner => inner.Reason

/-- Library value `herodot.ErrBadRequest`. -/
def ErrBadRequest : DefaultError :=
  { CodeField := 400
    StatusField := "Bad Request"
    ErrorField := "The request was malformed or contained invalid parameters"
    ReasonField := "" }

/-- Go `fmt.Sprintf` restricted to the verbs `%s` (with string operands) and
`%%`; every other character of the format is copied. -/
def sprintfAux : List Char → List String → List Char
  | '%' :: 's' :: rest, a :: as => a.data ++ sprintfAux rest as
  | '%' :: 's' :: rest, [] => "%!s(MISSING)".data ++ sprintfAux rest []
  | '%' :: '%' :: rest, as => '%' :: sprintfAux rest as
  | c :: rest, as => c :: sprintfAux rest as
  | [], _ => []

/-- Go `fmt.Sprintf(format, args...)` for string operands. -/
def Sprintf (format : String) (args : List String) : String :=
  String.mk (sprintfAux format.data args)

/-- Library method `(*DefaultError).WithReasonf`: a copy of the error whose
reason is the formatted text. -/
def DefaultError.WithReasonf (e : DefaultError) (format : String) (args : List String) :
    DefaultError :=
  { e with ReasonField := Sprintf format args }

/-- Library function `errors.WithStack`: nil stays nil, any other error is wrapped. -/
def WithStack : Option Error → Option Error
  | none => none
  | some err => some (Error.withStack err)

/-- Go `url.Values`, a map from a key to the list of its values, kept as an
association list in which the first entry of a key is the map's entry. -/
structure Values where
  entries : List (String × List String)
deriving DecidableEq, Repr

/-- Go `url.Values.Get`: the first value of the key, the empty string when the
key has no value. -/
def Values.Get (v : Values) (key : String) : String :=
  let vs := (v.entries.lookup key).getD []
  match vs with
  | [] => ""
  | x :: _ => x

/-- Whether the map has an entry for the key. -/
def Values.Has (v : Values) (key : String) : Prop :=
  ∃ vs, (key, vs) ∈ v.entries

/-- Go `url.URL`, reduced to the query that `Query()` parses out of it. -/
structure URL where
  parsedQuery : Values
deriving DecidableEq, Repr

/-- Go `(*url.URL).Query`. -/
def URL.Query (u : URL) : Values := u.parsedQuery

/-- Go `http.Request`, reduced to its URL. -/
structure Request where
  URL : URL
deriving DecidableEq, Repr

/-- A value that `Extra` answers: a string, an integer, a boolean, a floating-point
number, which is held as the text it was parsed from, or a value of another type. -/
inductive ExtraValue where
  | str (s : String)
  | num (n : Int)
  | bool (b : Bool)
  | float (text : String)
  | other
deriving DecidableEq, Repr

/-- The field `raw` of Go `oauth2.Token`: the map decoded from a JSON token response,
the `url.Values` of a form-encoded token response, or a value of another type. -/
inductive RawExtras where
  | json (m : List (String × ExtraValue))
  | form (vals : Values)
  | other
deriving DecidableEq, Repr

/-- Go `oauth2.Token`: the token endpoint's response. -/
structure Token where
  AccessToken : String
  TokenType : String
  RefreshToken : String
  raw : RawExtras
deriving DecidableEq, Repr

/-- Go `unicode.IsSpace`. -/
def isSpace (c : Char) : Bool :=
  [9, 10, 11, 12, 13, 32, 0x85, 0xA0, 0x1680, 0x2028, 0x2029, 0x202F, 0x205F, 0x3000].contains
      c.toNat ||
    (0x2000 ≤ c.toNat && c.toNat ≤ 0x200A)

/-- Go `strings.TrimSpace`. -/
def TrimSpace (s : String) : String :=
  String.mk ((s.data.dropWhile isSpace).reverse.dropWhile isSpace).reverse

/-- Go `strings.Count(s, ".")`. -/
def countDots (s : String) : Nat :=
  s.data.count '.'

/-- The value of a decimal digit. -/
def decimalDigit (c : Char) : Option Nat :=
  if 48 ≤ c.toNat ∧ c.toNat ≤ 57 then some (c.toNat - 48) else none

/-- The number written by a string of decimal digits; no value when a character is
not a decimal digit. -/
def decimalDigits : List Char → Nat → Option Nat
  | [], acc => some acc
  | c :: cs, acc =>
    match decimalDigit c with
    | some d => decimalDigits cs (acc * 10 + d)
    | none => none

/-- Go `strconv.ParseInt(s, 10, 64)`: the number, or no value when the call reports an
error (the text is not an optional sign followed by decimal digits, or the number is
outside the 64-bit range). -/
def ParseInt (s : String) : Option Int :=
  match s.data with
  | [] => none
  | c :: cs =>
    let neg := c = '-'
    let ds := if c = '+' ∨ c = '-' then cs else c :: cs
    match ds with
    | [] => none
    | _ =>
      match decimalDigits ds 0 with
      | none => none
      | some un =>
        if ¬ neg ∧ un ≥ 2 ^ 63 then none
        else if neg ∧ un > 2 ^ 63 then none
        else some (if neg then - (un : Int) else (un : Int))

/-- Go `strconv.lower`: the byte with the bit of lower case set. -/
def lower (c : Char) : Nat := c.toNat ||| 32

/-- The state of the digit loop of Go `strconv.readFloat`: whether a point and a digit
were seen, whether an underscore was seen, the number of digits after the leading
zeros, the position of the point and the number the digits write. -/
structure FloatScan where
  sawdot : Bool
  sawdigits : Bool
  underscores : Bool
  nd : Nat
  dp : Int
  digits : Nat

/-- The digit loop of Go `strconv.readFloat` in the given base: the state when the
loop stops, and the text that is left. -/
def scanDigits (base : Nat) : List Char → FloatScan → FloatScan × List Char
  | [], st => (st, [])
  | c :: cs, st =>
    if c = '_' then scanDigits base cs { st with underscores := true }
    else if c = '.' then
      if st.sawdot then (st, c :: cs)
      else scanDigits base cs { st with sawdot := true, dp := st.nd }
    else if 48 ≤ c.toNat ∧ c.toNat ≤ 57 then
      if c = '0' ∧ st.nd = 0 then
        scanDigits base cs { st with sawdigits := true, dp := st.dp - 1 }
      else
        scanDigits base cs
          { st with sawdigits := true, nd := st.nd + 1,
                    digits := st.digits * base + (c.toNat - 48) }
    else if base = 16 ∧ 97 ≤ lower c ∧ lower c ≤ 102 then
      scanDigits base cs
        { st with sawdigits := true, nd := st.nd + 1,
                  digits := st.digits * 16 + (lower c - 97 + 10) }
    else (st, c :: cs)

/-- The digits of the exponent in Go `strconv.readFloat`: underscores are skipped and
the number stops growing at ten thousand; the result is the number, whether an
underscore was seen, and the text that is left. -/
def scanExponent : List Char → Nat → Bool → Nat × Bool × List Char
  | [], e, u => (e, u, [])
  | c :: cs, e, u =>
    if c = '_' then scanExponent cs e true
    else if 48 ≤ c.toNat ∧ c.toNat ≤ 57 then
      scanExponent cs (if e < 10000 then e * 10 + (c.toNat - 48) else e) u
    else (e, u, c :: cs)

/-- The loop of Go `strconv.underscoreOK` over the number proper; `saw` is 0 at the
start, 1 after a digit or the base prefix, 2 after an underscore and 3 after another
character. -/
def underscoreLoop (hex : Bool) : List Char → Nat → Bool
  | [], saw => saw ≠ 2
  | c :: cs, saw =>
    if (48 ≤ c.toNat ∧ c.toNat ≤ 57) ∨ (hex = true ∧ 97 ≤ lower c ∧ lower c ≤ 102) then
      underscoreLoop hex cs 1
    else if c = '_' then
      if saw ≠ 1 then false else underscoreLoop hex cs 2
    else if saw = 2 then false
    else underscoreLoop hex cs 3

/-- Go `strconv.underscoreOK`: underscores stand only between digits or between a base
prefix and a digit. -/
def underscoreOK (s : List Char) : Bool :=
  let s1 := match s with
    | c :: cs => if c = '-' ∨ c = '+' then cs else c :: cs
    | [] => []
  match s1 with
  | c0 :: c1 :: cs =>
    if c0 = '0' ∧ (lower c1 = 98 ∨ lower c1 = 111 ∨ lower c1 = 120) then
      underscoreLoop (lower c1 = 120) cs 1
    else underscoreLoop false s1 0
  | _ => underscoreLoop false s1 0

/-- A number read by Go `strconv.readFloat`: its sign, its base, the number its digits
write, and the exponent of the base (ten, or two for a hexadecimal number) by which
that number is multiplied. -/
structure FloatLit where
  neg : Bool
  hex : Bool
  digits : Nat
  exp : Int
deriving DecidableEq, Repr

/-- Go `strconv.readFloat` on a text that it reads to the end: no value when the text
is not a number or is not read to the end. -/
def readFloat (s : List Char) : Option FloatLit :=
  match s with
  | [] => none
  | c :: cs =>
    let neg := c = '-'
    let s1 := if c = '+' ∨ c = '-' then cs else c :: cs
    let hex : Bool := match s1 with
      | c0 :: c1 :: _ :: _ => c0 = '0' ∧ lower c1 = 120
      | _ => false
    let base := if hex then 16 else 10
    let r := scanDigits base (if hex then s1.drop 2 else s1)
      { sawdot := false, sawdigits := false, underscores := false, nd := 0, dp := 0,
        digits := 0 }
    let st := r.1
    if ¬ st.sawdigits then none
    else
      let dp0 : Int := if st.sawdot then st.dp else st.nd
      let dp1 : Int := if hex then dp0 * 4 else dp0
      let nd1 : Int := if hex then st.nd * 4 else st.nd
      match r.2 with
      | x :: xs =>
        if lower x = (if hex then 112 else 101) then
          match xs with
          | [] => none
          | y :: ys =>
            let esign : Int := if y = '-' then -1 else 1
            let ds := if y = '+' ∨ y = '-' then ys else y :: ys
            match ds with
            | [] => none
            | d :: _ =>
              if ¬ (48 ≤ d.toNat ∧ d.toNat ≤ 57) then none
              else
                let ex := scanExponent ds 0 st.underscores
                if ex.2.2 ≠ [] then none
                else if ex.2.1 ∧ ¬ underscoreOK s then none
                else
                  some { neg := neg, hex := hex, digits := st.digits,
                         exp := dp1 + ex.1 * esign - nd1 }
        else none
      | [] =>
        if hex then none
        else if st.underscores ∧ ¬ underscoreOK s then none
        else some { neg := neg, hex := hex, digits := st.digits, exp := dp1 - nd1 }

/-- Whether a number is so large that its nearest 64-bit floating-point number is
infinite: it is at least the middle between the largest finite one and two to the
power 1024. -/
def FloatLit.overflows (f : FloatLit) : Bool :=
  let b : Nat := if f.hex then 2 else 10
  if 0 ≤ f.exp then f.digits * b ^ f.exp.toNat ≥ 2 ^ 1024 - 2 ^ 970
  else f.digits ≥ (2 ^ 1024 - 2 ^ 970) * b ^ (- f.exp).toNat

/-- The byte with an ASCII capital letter turned into the small one, as in Go
`strconv.commonPrefixLenIgnoreCase`. -/
def lowerASCII (c : Char) : Char :=
  if 65 ≤ c.toNat ∧ c.toNat ≤ 90 then Char.ofNat (c.toNat + 32) else c

/-- Go `strconv.special` on a text that it reads to the end: `inf` or `infinity` after
an optional sign, or `nan` without a sign, in any case of the letters. -/
def isSpecialFloat (s : List Char) : Bool :=
  let body := match s with
    | c :: cs => if c = '+' ∨ c = '-' then cs else c :: cs
    | [] => []
  body.map lowerASCII = "inf".data ∨ body.map lowerASCII = "infinity".data ∨
    s.map lowerASCII = "nan".data

/-- Whether Go `strconv.ParseFloat(s, 64)` reports no error: the text is a special
value, or a decimal or hexadecimal number that does not overflow. -/
def ParseFloatOK (s : String) : Bool :=
  isSpecialFloat s.data ||
    match readFloat s.data with
    | some f => ! f.overflows
    | none => false

/-- Go `(*oauth2.Token).Extra`. On the map of a JSON response it answers the entry of
the key, nil when there is none. On the values of a form-encoded response it takes the
first value of the key, the empty string when there is none, and answers it as an
integer or as a floating-point number when the trimmed text has no point or one point
and parses as such, and as the string itself otherwise. On another raw value it
answers nil. -/
def Token.Extra (t : Token) (key : String) : Option ExtraValue :=
  match t.raw with
  | RawExtras.json m => m.lookup key
  | RawExtras.form vals =>
    let v := vals.Get key
    let s := TrimSpace v
    match countDots s with
    | 0 =>
      match ParseInt s with
      | some i => some (ExtraValue.num i)
      | none => some (ExtraValue.str v)
    | 1 => if ParseFloatOK s then some (ExtraValue.float s) else some (ExtraValue.str v)
    | _ => some (ExtraValue.str v)
  | RawExtras.other => none

/-- Go conversion `[]byte(s)`. -/
def bytes (s : String) : List UInt8 :=
  s.data.flatMap fun c => String.utf8EncodeChar c

/-- Go `url.shouldEscape` in the mode `encodeQueryComponent`: every byte is escaped but
the ASCII letters and digits and the marks `-`, `_`, `.`, `~`. -/
def shouldEscape (c : UInt8) : Bool :=
  if (97 ≤ c.toNat ∧ c.toNat ≤ 122) ∨ (65 ≤ c.toNat ∧ c.toNat ≤ 90) ∨
      (48 ≤ c.toNat ∧ c.toNat ≤ 57) then false
  else if c.toNat = 45 ∨ c.toNat = 95 ∨ c.toNat = 46 ∨ c.toNat = 126 then false
  else true

/-- The digit of Go's `upperhex` table for a number below sixteen. -/
def upperhex (n : Nat) : Char :=
  "0123456789ABCDEF".data.getD n '0'

/-- What Go `url.escape` writes for one byte in the mode `encodeQueryComponent`: a
plus sign for a blank, a percent sign and two hexadecimal digits for another byte
that is to be escaped, and the byte itself otherwise. -/
def escapeByte (c : UInt8) : List Char :=
  if c.toNat = 32 then ['+']
  else if shouldEscape c then ['%', upperhex (c.toNat / 16), upperhex (c.toNat % 16)]
  else [Char.ofNat c.toNat]

/-- Go `url.QueryEscape`. -/
def QueryEscape (s : String) : String :=
  String.mk ((bytes s).flatMap escapeByte)

/-- The characters that `QueryEscape` leaves alone: the ASCII letters and digits and
the marks `-`, `_`, `.`, `~`. -/
def unreservedChar (c : Char) : Bool :=
  (97 ≤ c.toNat && c.toNat ≤ 122) || (65 ≤ c.toNat && c.toNat ≤ 90) ||
    (48 ≤ c.toNat && c.toNat ≤ 57) || c.toNat = 45 || c.toNat = 95 || c.toNat = 46 ||
    c.toNat = 126

/-- Go `url.Values.Set`: the key gets the one value. -/
def Values.Set (v : Values) (key value : String) : Values :=
  { entries := (key, [value]) :: v.entries.filter fun p => p.1 ≠ key }

/-- Go's order of strings, the lexicographic order of their bytes. -/
def bytesLE : List UInt8 → List UInt8 → Bool
  | [], _ => true
  | _ :: _, [] => false
  | a :: as, b :: bs =>
    if a.toNat < b.toNat then true
    else if b.toNat < a.toNat then false
    else bytesLE as bs

/-- Go's `a <= b` on strings. -/
def stringLE (a b : String) : Bool := bytesLE (bytes a) (bytes b)

/-- Go `url.Values.Encode`: the pairs `key=value`, both escaped, in the order of the
sorted keys; an ampersand is written before a pair when the buffer is not empty. -/
def Values.Encode (v : Values) : String :=
  if v.entries.length = 0 then ""
  else
    let keys := ((v.entries.map Prod.fst).dedup).insertionSort fun a b => stringLE a b = true
    keys.foldl (fun buf k =>
      let vs := (v.entries.lookup k).getD []
      let keyEscaped := QueryEscape k
      vs.foldl (fun buf x =>
        (if buf.length > 0 then buf ++ "&" else buf) ++ keyEscaped ++ "=" ++ QueryEscape x)
        buf) ""

/-- Go `oauth2.AuthCodeOption`, which the library implements by `setParam`: a
parameter of the authorization URL and its value. -/
structure AuthCodeOption where
  k : String
  v : String
deriving DecidableEq, Repr

/-- Go `setParam.setValue`. -/
def AuthCodeOption.setValue (p : AuthCodeOption) (m : Values) : Values :=
  m.Set p.k p.v

/-- Go `strings.Contains` for a substring of one character. -/
def containsChar (s : String) (c : Char) : Bool :=
  s.data.contains c

/-! ## Data of the package -/

/-- Modelled from the spec: the declaration of the `Claims` struct is not part
of the file; a normalized identity assertion, a `Subject` identifier plus
provider-specific attributes. -/
structure Claims where
  Subject : String
  attributes : List (String × String)
deriving DecidableEq, Repr

/-- Modelled from the spec: the declaration of `ProviderCredentialsConfig` is not
part of the file; the four fields the file assigns. -/
structure ProviderCredentialsConfig where
  Subject : String
  InitialAccessToken : String
  InitialRefreshToken : String
  InitialIDToken : String
deriving DecidableEq, Repr

/-- A call to a collaborator together with what it answered. -/
inductive Event where
  | providerOAuth2 (err : Option Error)
  | providerClaims (exchange : Option Token) (res : Option Claims × Option Error)
  | encrypt (plaintext : List UInt8) (res : String × Option Error)
  | exchange (code : String) (res : Option Token × Option Error)
deriving DecidableEq, Repr

/-- The outside world: the state the collaborators answer from, and the calls
made to them so far, oldest first. -/
structure World (σ : Type) where
  state : σ
  trace : List Event

/-- Go `oauth2.Config`: the client configuration, with the behaviour of the
token endpoint it points to. -/
structure Config (σ : Type) where
  ClientID : String
  ClientSecret : String
  AuthURL : String
  TokenURL : String
  RedirectURL : String
  Scopes : List String
  Exchange : Context → String → σ → (Option Token × Option Error) × σ

/-- Interface `oAuth2Provider`. Its method `Config()` is called nowhere in the
file and is left out. -/
structure oAuth2Provider (σ : Type) where
  OAuth2 : Context → σ → (Option (Config σ) × Option Error) × σ
  Claims : Context → Option Token → σ → (Option oidc.Claims × Option Error) × σ

/-- Interface `cipher.Cipher`, reduced to the method the file calls. -/
structure Cipher (σ : Type) where
  Encrypt : Context → List UInt8 → σ → (String × Option Error) × σ

/-- Struct `oAuth2Token`. -/
structure oAuth2Token (σ : Type) where
  op : oAuth2Provider σ
  token : Option Token
  claims : Option Claims

/-- A run-time panic of the Go program. -/
inductive Panic where
  | nilDereference
deriving DecidableEq, Repr

variable {σ : Type}

/-! ## Calls to the collaborators, recorded in the trace -/

/-- The call `op.Claims(ctx, exchange)`. -/
def oAuth2Provider.callClaims (op : oAuth2Provider σ) (ctx : Context) (exchange : Option Token)
    (w : World σ) : (Option oidc.Claims × Option Error) × World σ :=
  let r := op.Claims ctx exchange w.state
  (r.1, { state := r.2, trace := w.trace ++ [Event.providerClaims exchange r.1] })

/-- The call `op.OAuth2(ctx)`. -/
def oAuth2Provider.callOAuth2 (op : oAuth2Provider σ) (ctx : Context)
    (w : World σ) : (Option (Config σ) × Option Error) × World σ :=
  let r := op.OAuth2 ctx w.state
  (r.1, { state := r.2, trace := w.trace ++ [Event.providerOAuth2 r.1.2] })

/-- The call `c.Encrypt(ctx, plaintext)`. -/
def Cipher.callEncrypt (c : Cipher σ) (ctx : Context) (plaintext : List UInt8)
    (w : World σ) : (String × Option Error) × World σ :=
  let r := c.Encrypt ctx plaintext w.state
  (r.1, { state := r.2, trace := w.trace ++ [Event.encrypt plaintext r.1] })

/-- The call `c.Exchange(ctx, code)`. -/
def Config.callExchange (c : Config σ) (ctx : Context) (code : String)
    (w : World σ) : (Option Token × Option Error) × World σ :=
  let r := c.Exchange ctx code w.state
  (r.1, { state := r.2, trace := w.trace ++ [Event.exchange code r.1] })

/-- Go `(*oauth2.Config).AuthCodeURL`: the authorization endpoint followed by the
encoded parameters; the state is a parameter when it is not empty, and the options
are applied to the parameters last. -/
def Config.AuthCodeURL (c : Config σ) (state : String) (opts : List AuthCodeOption) : String :=
  let v0 : Values := { entries := [("response_type", ["code"]), ("client_id", [c.ClientID])] }
  let v1 := if c.RedirectURL ≠ "" then v0.Set "redirect_uri" c.RedirectURL else v0
  let v2 := if c.Scopes.length > 0 then v1.Set "scope" (" ".intercalate c.Scopes) else v1
  let v3 := if state ≠ "" then v2.Set "state" state else v2
  let v4 := opts.foldl (fun v opt => opt.setValue v) v3
  c.AuthURL ++ (if containsChar c.AuthURL '?' then "&" else "?") ++ v4.Encode

/-! ## The functions of the file -/

/-- Method `(*oAuth2Token).Claims`. -/
def oAuth2Token.Claims (t : oAuth2Token σ) (ctx : Context) (w : World σ) :
    (Option oidc.Claims × Option Error) × oAuth2Token σ × World σ :=
  match t.claims with
  | none =>
    let r := t.op.callClaims ctx t.token w
    match r.1.2 with
    | some err => ((none, some err), t, r.2)
    | none =>
      let t1 : oAuth2Token σ := { t with claims := r.1.1 }
      ((t1.claims, none), t1, r.2)
  | some c => ((some c, none), t, w)

/-- The first step of `CredentialsConfig` on the raw token `tok`: the `id_token`
extension value is encrypted when it is a string; otherwise `it` keeps its zero
value and `err` is nil. -/
def idTokenStep (tok : Token) (ctx : Context) (c : Cipher σ) (w : World σ) :
    (String × Option Error) × World σ :=
  match tok.Extra "id_token" with
  | some (ExtraValue.str idToken) => c.callEncrypt ctx (bytes idToken) w
  | _ => (("", none), w)

/-- Method `(*oAuth2Token).CredentialsConfig`. The call `t.token.Extra` panics when
`t.token` is nil, and the read of `claims.Subject` panics when `claims` is nil. -/
def oAuth2Token.CredentialsConfig (t : oAuth2Token σ) (ctx : Context) (c : Cipher σ)
    (w : World σ) :
    Except Panic (Option ProviderCredentialsConfig × Option Error) × oAuth2Token σ × World σ :=
  match t.token with
  | none => (.error Panic.nilDereference, t, w)
  | some tok =>
    let r1 := idTokenStep tok ctx c w
    match r1.1.2 with
    | some err => (.ok (none, some err), t, r1.2)
    | none =>
      let it := r1.1.1
      let r2 := c.callEncrypt ctx (bytes tok.AccessToken) r1.2
      match r2.1.2 with
      | some err => (.ok (none, some err), t, r2.2)
      | none =>
        let cat := r2.1.1
        let r3 := c.callEncrypt ctx (bytes tok.RefreshToken) r2.2
        match r3.1.2 with
        | some err => (.ok (none, some err), t, r3.2)
        | none =>
          let crt := r3.1.1
          let r4 := t.Claims ctx r3.2
          match r4.1.2 with
          | some err => (.ok (none, some err), r4.2.1, r4.2.2)
          | none =>
            match r4.1.1 with
            | none => (.error Panic.nilDereference, r4.2.1, r4.2.2)
            | some claims =>
              (.ok (some { Subject := claims.Subject
                           InitialAccessToken := cat
                           InitialRefreshToken := crt
                           InitialIDToken := it }, none), r4.2.1, r4.2.2)

/-- Function `oAuth2CodeURL`. The call `c.AuthCodeURL` panics when `c` is nil. -/
def oAuth2CodeURL (ctx : Context) (state : String) (op : oAuth2Provider σ)
    (opts : List AuthCodeOption) (w : World σ) :
    Except Panic (String × Option Error) × World σ :=
  let r := op.callOAuth2 ctx w
  match r.1.2 with
  | some err => (.ok ("", some err), r.2)
  | none =>
    match r.1.1 with
    | none => (.error Panic.nilDereference, r.2)
    | some c => (.ok (c.AuthCodeURL state opts, none), r.2)

/-- Function `parseOAuth2Token`. The call `c.Exchange` panics when `c` is nil. -/
def parseOAuth2Token (ctx : Context) (op : oAuth2Provider σ) (req : Request) (w : World σ) :
    Except Panic (Option (oAuth2Token σ) × Option Error) × World σ :=
  let r := op.callOAuth2 ctx w
  match r.1.2 with
  | some err => (.ok (none, some err), r.2)
  | none =>
    match r.1.1 with
    | none => (.error Panic.nilDereference, r.2)
    | some c =>
      let code := req.URL.Query.Get "code"
      let x := c.callExchange ctx code r.2
      match x.1.2 with
      | some err => (.ok (none, some err), x.2)
      | none => (.ok (some { op := op, token := x.1.1, claims := none }, none), x.2)

/-- The format of the reason of `checkOAuth2Error`. -/
def oAuth2ErrorFormat : String :=
  "Unable to complete OpenID Connect flow because the OpenID Provider returned error \"%s\": %s"

/-- Function `checkOAuth2Error`. -/
def checkOAuth2Error (_ctx : Context) (r : Request) : Option Error :=
  if r.URL.Query.Get "error" = "" then
    none
  else
    WithStack (some (Error.herodot (ErrBadRequest.WithReasonf oAuth2ErrorFormat
      [r.URL.Query.Get "error", r.URL.Query.Get "error_description"])))

/-- The fixed text in front of the provider's error in the reason of `checkOAuth2Error`. -/
def reasonHead : String :=
  "Unable to complete OpenID Connect flow because the OpenID Provider returned error \""

/-! ## Uses of an issued token, and what the trace says -/

/-- One step in the life of an issued token: its owner calls `Claims` or
`CredentialsConfig` on it, or the outside world changes between two calls. -/
inductive Step (σ : Type) where
  | claims (ctx : Context)
  | credentialsConfig (ctx : Context) (c : Cipher σ)
  | world (f : σ → σ)

/-- The effect of one step on the token and the world; a panic of
`CredentialsConfig` leaves both as they were when it was raised. -/
def Step.run : Step σ → oAuth2Token σ × World σ → oAuth2Token σ × World σ
  | .claims ctx, (t, w) => (t.Claims ctx w).2
  | .credentialsConfig ctx c, (t, w) => (t.CredentialsConfig ctx c w).2
  | .world f, (t, w) => (t, { w with state := f w.state })

/-- The effect of a finite sequence of steps. -/
def runSteps : List (Step σ) → oAuth2Token σ × World σ → oAuth2Token σ × World σ
  | [], s => s
  | x :: xs, s => runSteps xs (x.run s)

/-- The event is a call to the provider's claim resolution. -/
def Event.isProviderClaims : Event → Bool
  | .providerClaims _ _ => true
  | _ => false

/-- The event is a call to the provider's claim resolution that answered a
claims value and no error. -/
def Event.isResolved : Event → Bool
  | .providerClaims _ (some _, none) => true
  | _ => false

/-- The event is a call to the cipher. -/
def Event.isEncrypt : Event → Bool
  | .encrypt _ _ => true
  | _ => false

/-- The event is a call to the token endpoint. -/
def Event.isExchange : Event → Bool
  | .exchange _ _ => true
  | _ => false

/-- How often the provider's claim resolution was invoked in a trace. -/
def claimsInvocations (tr : List Event) : Nat := tr.countP Event.isProviderClaims

/-- How often the provider's claim resolution answered a claims value and no
error in a trace. -/
def resolutions (tr : List Event) : Nat := tr.countP Event.isResolved

/-- No call to the provider's claim resolution follows one that answered a
claims value and no error. -/
def NoCallAfterResolved (tr : List Event) : Prop :=
  ∀ pre e post, tr = pre ++ e :: post → e.isResolved = true → claimsInvocations post = 0

/-- The events a call of `idTokenStep` adds to the trace. -/
def idTokenEvents (tok : Token) (ctx : Context) (c : Cipher σ) (w : World σ) :
    List Event :=
  match tok.Extra "id_token" with
  | some (ExtraValue.str idToken) =>
    [Event.encrypt (bytes idToken) (c.Encrypt ctx (bytes idToken) w.state).1]
  | _ => []

/-- The second step of `CredentialsConfig`, run where the first one stopped: the
access token is encrypted. -/
def accessStep (tok : Token) (ctx : Context) (c : Cipher σ) (w : World σ) :
    (String × Option Error) × World σ :=
  c.callEncrypt ctx (bytes tok.AccessToken) (idTokenStep tok ctx c w).2

/-- The third step of `CredentialsConfig`, run where the second one stopped: the
refresh token is encrypted. -/
def refreshStep (tok : Token) (ctx : Context) (c : Cipher σ) (w : World σ) :
    (String × Option Error) × World σ :=
  c.callEncrypt ctx (bytes tok.RefreshToken) (accessStep tok ctx c w).2

/-- The fourth step of `CredentialsConfig`, run where the third one stopped: the
claims are resolved. -/
def claimsStep (t : oAuth2Token σ) (tok : Token) (ctx : Context) (c : Cipher σ)
    (w : World σ) :
    (Option oidc.Claims × Option Error) × oAuth2Token σ × World σ :=
  t.Claims ctx (refreshStep tok ctx c w).2

/-- The events a call of `Claims` adds to the trace. -/
def claimsEvents (t : oAuth2Token σ) (ctx : Context) (w : World σ) : List Event :=
  match t.claims with
  | none => [Event.providerClaims t.token (t.op.Claims ctx t.token w.state).1]
  | some _ => []

/-- The events a call of `CredentialsConfig` adds to the trace: the calls of the
steps it runs, which are those up to the first failing one. -/
def credentialsConfigEvents (t : oAuth2Token σ) (ctx : Context) (c : Cipher σ)
    (w : World σ) : List Event :=
  match t.token with
  | none => []
  | some tok =>
    idTokenEvents tok ctx c w ++
      match (idTokenStep tok ctx c w).1.2 with
      | some _ => []
      | none =>
        Event.encrypt (bytes tok.AccessToken) (accessStep tok ctx c w).1 ::
          match (accessStep tok ctx c w).1.2 with
          | some _ => []
          | none =>
            Event.encrypt (bytes tok.RefreshToken) (refreshStep tok ctx c w).1 ::
              match (refreshStep tok ctx c w).1.2 with
              | some _ => []
              | none => claimsEvents t ctx (refreshStep tok ctx c w).2

/-! ## Concrete collaborators, for evaluating the functions -/

/-- A token response with an identity token and an empty refresh token. -/
def sampleToken : Token :=
  { AccessToken := "at", TokenType := "bearer", RefreshToken := "",
    raw := RawExtras.json [("id_token", ExtraValue.str "idt")] }

/-- A token response without an identity token. -/
def plainToken : Token :=
  { AccessToken := "at", TokenType := "bearer", RefreshToken := "rt",
    raw := RawExtras.json [] }

/-- A form-encoded token response without an identity token. -/
def formToken : Token :=
  { AccessToken := "at", TokenType := "bearer", RefreshToken := "rt",
    raw := RawExtras.form
      { entries := [("access_token", ["at"]), ("token_type", ["bearer"]),
          ("refresh_token", ["rt"])] } }

/-- A form-encoded token response whose `id_token` is the text of a number. -/
def formNumberToken : Token :=
  { AccessToken := "at", TokenType := "bearer", RefreshToken := "rt",
    raw := RawExtras.form
      { entries := [("access_token", ["at"]), ("token_type", ["bearer"]),
          ("refresh_token", ["rt"]), ("id_token", [" 12345 "])] } }

/-- The claims the sample providers resolve. -/
def aliceClaims : Claims := { Subject := "alice", attributes := [] }

/-- A provider over a world that counts the claim resolutions so far: each
resolution fails until `fails` of them have been made, the later ones answer
the claims of alice. It has no client configuration. -/
def flakyProvider (fails : Nat) : oAuth2Provider Nat :=
  { OAuth2 := fun _ n => ((none, some (Error.external "no client configuration")), n)
    Claims := fun _ _ n =>
      if n < fails then ((none, some (Error.external "userinfo unavailable")), n + 1)
      else ((some aliceClaims, none), n + 1) }

/-- A cipher that answers the number of bytes it was given after the text `enc`,
and leaves the world alone. -/
def lengthCipher : Cipher Nat :=
  { Encrypt := fun _ p n => (("enc" ++ toString p.length, none), n) }

/-- A cipher that refuses the empty plaintext and otherwise is `lengthCipher`. -/
def nonEmptyCipher : Cipher Nat :=
  { Encrypt := fun _ p n =>
      if p = [] then (("", some (Error.external "cipher: empty plaintext")), n)
      else (("enc" ++ toString p.length, none), n) }

/-- A client configuration whose token endpoint accepts the code `good`. -/
def sampleConfig : Config Nat :=
  { ClientID := "kratos", ClientSecret := "secret", AuthURL := "https://idp.example/auth",
    TokenURL := "https://idp.example/token", RedirectURL := "", Scopes := [],
    Exchange := fun _ code n =>
      if code = "good" then ((some plainToken, none), n + 1)
      else ((none, some (Error.external "invalid_grant")), n + 1) }

/-- A provider with the client configuration `sampleConfig`. -/
def configuredProvider : oAuth2Provider Nat :=
  { OAuth2 := fun _ n => ((some sampleConfig, none), n)
    Claims := fun _ _ n => ((some aliceClaims, none), n) }

/-- A cipher that refuses every plaintext, with an error that tells its length. -/
def refusingCipher : Cipher Nat :=
  { Encrypt := fun _ p n =>
      (("", some (Error.external ("cipher: refused " ++ toString p.length))), n + 1) }

/-- A provider whose claim resolution answers nil claims and no error. -/
def nilClaimsProvider : oAuth2Provider Nat :=
  { OAuth2 := fun _ n => ((some sampleConfig, none), n)
    Claims := fun _ _ n => ((none, none), n + 1) }

/-- An issued token as `parseOAuth2Token` builds it: the claims are not resolved yet. -/
def issued (op : oAuth2Provider Nat) (tok : Token) : oAuth2Token Nat :=
  { op := op, token := some tok, claims := none }

/-- A world in which nothing has been called yet. -/
def freshWorld : World Nat := { state := 0, trace := [] }

/-! ## Lookup in maps -/

/-- An entry found by `lookup` is an entry of the list. -/
theorem mem_of_lookup_eq_some {β : Type} (key : String) (l : List (String × β)) (b : β)
    (h : l.lookup key = some b) : (key, b) ∈ l := by
  induction l with
  | nil => simp at h
  | cons p ps ih =>
    obtain ⟨k, x⟩ := p
    by_cases hkk : key = k
    · subst hkk
      simp only [List.lookup, beq_self_eq_true, Option.some.injEq] at h
      simp [h]
    · have hb : (key == k) = false := by simpa using hkk
      simp only [List.lookup, hb] at h
      exact List.mem_cons_of_mem _ (ih h)

/-- `Get` answers the empty string for a key the map has no entry for. -/
theorem Values.Get_of_not_Has (v : Values) (key : String) (h : ¬ v.Has key) :
    v.Get key = "" := by
  have hl : v.entries.lookup key = none := by
    cases hk : v.entries.lookup key with
    | none => rfl
    | some vs => exact absurd ⟨vs, mem_of_lookup_eq_some key _ vs hk⟩ h
  simp [Values.Get, hl]

/-! ## The paths through `Claims` -/

/-- With the cache set, `Claims` returns it and touches nothing. -/
theorem Claims_cached (t : oAuth2Token σ) (ctx : Context) (w : World σ) (c : oidc.Claims)
    (h : t.claims = some c) : t.Claims ctx w = ((some c, none), t, w) := by
  simp [oAuth2Token.Claims, h]

/-- With the cache unset and the provider failing, `Claims` returns the error and
leaves the token as it was. -/
theorem Claims_uncached_err (t : oAuth2Token σ) (ctx : Context) (w : World σ) (e : Error)
    (h : t.claims = none) (he : (t.op.Claims ctx t.token w.state).1.2 = some e) :
    t.Claims ctx w = ((none, some e), t, (t.op.callClaims ctx t.token w).2) := by
  simp [oAuth2Token.Claims, h, oAuth2Provider.callClaims, he]

/-- With the cache unset and the provider answering no error, `Claims` stores and
returns what the provider answered. -/
theorem Claims_uncached_ok (t : oAuth2Token σ) (ctx : Context) (w : World σ)
    (h : t.claims = none) (he : (t.op.Claims ctx t.token w.state).1.2 = none) :
    t.Claims ctx w =
      (((t.op.Claims ctx t.token w.state).1.1, none),
        { t with claims := (t.op.Claims ctx t.token w.state).1.1 },
        (t.op.callClaims ctx t.token w).2) := by
  simp [oAuth2Token.Claims, h, oAuth2Provider.callClaims, he]

/-- A call to the provider's claim resolution adds one event to the trace. -/
theorem callClaims_trace (op : oAuth2Provider σ) (ctx : Context) (tok : Option Token)
    (w : World σ) :
    (op.callClaims ctx tok w).2.trace =
      w.trace ++ [Event.providerClaims tok (op.Claims ctx tok w.state).1] := rfl

/-- Storing nil in an unset cache changes nothing. -/
theorem set_claims_none (t : oAuth2Token σ) (h : t.claims = none) :
    ({ t with claims := none } : oAuth2Token σ) = t := by
  cases t
  simp_all

/-- The trace after `Claims` is the trace before it followed by `claimsEvents`. -/
theorem Claims_trace (t : oAuth2Token σ) (ctx : Context) (w : World σ) :
    (t.Claims ctx w).2.2.trace = w.trace ++ claimsEvents t ctx w := by
  rcases hc : t.claims with _ | c
  · rcases he : (t.op.Claims ctx t.token w.state).1.2 with _ | e
    · rw [Claims_uncached_ok t ctx w hc he]
      simp [claimsEvents, hc, callClaims_trace]
    · rw [Claims_uncached_err t ctx w e hc he]
      simp [claimsEvents, hc, callClaims_trace]
  · rw [Claims_cached t ctx w c hc]
    simp [claimsEvents, hc]

/-- What one call of `Claims` does to the token and which events it adds. -/
theorem Claims_step (t : oAuth2Token σ) (ctx : Context) (w : World σ) :
    (t.Claims ctx w).2.1.op = t.op ∧ (t.Claims ctx w).2.1.token = t.token ∧
    claimsInvocations (claimsEvents t ctx w) ≤ 1 ∧
    (t.claims ≠ none → (t.Claims ctx w).2.1 = t ∧ claimsEvents t ctx w = []) ∧
    ((t.Claims ctx w).2.1.claims = none →
      (t.Claims ctx w).2.1 = t ∧ resolutions (claimsEvents t ctx w) = 0) := by
  rcases hc : t.claims with _ | c
  · rcases he : (t.op.Claims ctx t.token w.state).1.2 with _ | e
    · rw [Claims_uncached_ok t ctx w hc he]
      refine ⟨rfl, rfl, ?_, by simp, ?_⟩
      · simp [claimsEvents, hc, claimsInvocations, Event.isProviderClaims]
      · intro h
        simp only at h
        refine ⟨?_, ?_⟩
        · simp only [h]
          exact set_claims_none t hc
        · rcases hr : (t.op.Claims ctx t.token w.state).1 with ⟨a, b⟩
          rw [hr] at h he
          simp only at h he
          subst h
          subst he
          simp [claimsEvents, hc, resolutions, hr, Event.isResolved]
    · rw [Claims_uncached_err t ctx w e hc he]
      refine ⟨rfl, rfl, ?_, by simp, ?_⟩
      · simp [claimsEvents, hc, claimsInvocations, Event.isProviderClaims]
      · intro _
        refine ⟨rfl, ?_⟩
        rcases hr : (t.op.Claims ctx t.token w.state).1 with ⟨a, b⟩
        rw [hr] at he
        simp only at he
        subst he
        simp [claimsEvents, hc, resolutions, Event.isResolved, hr]
  · rw [Claims_cached t ctx w c hc]
    simp [claimsEvents, hc, claimsInvocations]

/-- A claims value that `Claims` returns without error is the one in the cache afterwards,
and was in the cache before unless the cache was unset. -/
theorem Claims_returns_cache (t : oAuth2Token σ) (ctx : Context) (w : World σ)
    (cl : oidc.Claims) (h1 : (t.Claims ctx w).1.1 = some cl) :
    (t.Claims ctx w).2.1.claims = some cl ∧ (t.claims = none ∨ t.claims = some cl) := by
  rcases hc : t.claims with _ | c
  · rcases he : (t.op.Claims ctx t.token w.state).1.2 with _ | e
    · rw [Claims_uncached_ok t ctx w hc he] at h1 ⊢
      simpa using h1
    · rw [Claims_uncached_err t ctx w e hc he] at h1
      simp at h1
  · rw [Claims_cached t ctx w c hc] at h1 ⊢
    simp only [Option.some.injEq] at h1
    simp [hc, h1]

/-! ## The paths through `CredentialsConfig` -/

/-- On a nil raw token `CredentialsConfig` panics at once. -/
theorem CredentialsConfig_nil_token (t : oAuth2Token σ) (ctx : Context) (c : Cipher σ)
    (w : World σ) (htok : t.token = none) :
    t.CredentialsConfig ctx c w = (.error Panic.nilDereference, t, w) := by
  simp [oAuth2Token.CredentialsConfig, htok]

/-- The path on which the encryption of the identity token fails. -/
theorem CredentialsConfig_idToken_err (t : oAuth2Token σ) (ctx : Context) (c : Cipher σ)
    (w : World σ) (tok : Token) (htok : t.token = some tok)
    (e : Error) (h1 : (idTokenStep tok ctx c w).1.2 = some e) :
    t.CredentialsConfig ctx c w = (.ok (none, some e), t, (idTokenStep tok ctx c w).2) := by
  simp [oAuth2Token.CredentialsConfig, htok, h1]

/-- The path on which the encryption of the access token fails. -/
theorem CredentialsConfig_access_err (t : oAuth2Token σ) (ctx : Context) (c : Cipher σ)
    (w : World σ) (tok : Token) (htok : t.token = some tok)
    (e : Error) (h1 : (idTokenStep tok ctx c w).1.2 = none)
    (h2 : (accessStep tok ctx c w).1.2 = some e) :
    t.CredentialsConfig ctx c w = (.ok (none, some e), t, (accessStep tok ctx c w).2) := by
  simp only [accessStep] at h2
  simp [oAuth2Token.CredentialsConfig, htok, h1, h2, accessStep]

/-- The path on which the encryption of the refresh token fails. -/
theorem CredentialsConfig_refresh_err (t : oAuth2Token σ) (ctx : Context) (c : Cipher σ)
    (w : World σ) (tok : Token) (htok : t.token = some tok)
    (e : Error) (h1 : (idTokenStep tok ctx c w).1.2 = none)
    (h2 : (accessStep tok ctx c w).1.2 = none) (h3 : (refreshStep tok ctx c w).1.2 = some e) :
    t.CredentialsConfig ctx c w = (.ok (none, some e), t, (refreshStep tok ctx c w).2) := by
  simp only [accessStep, refreshStep] at h2 h3
  simp [oAuth2Token.CredentialsConfig, htok, h1, h2, h3, accessStep, refreshStep]

/-- The path on which the claims resolution fails. -/
theorem CredentialsConfig_claims_err (t : oAuth2Token σ) (ctx : Context) (c : Cipher σ)
    (w : World σ) (tok : Token) (htok : t.token = some tok)
    (e : Error) (h1 : (idTokenStep tok ctx c w).1.2 = none)
    (h2 : (accessStep tok ctx c w).1.2 = none) (h3 : (refreshStep tok ctx c w).1.2 = none)
    (h4 : (claimsStep t tok ctx c w).1.2 = some e) :
    t.CredentialsConfig ctx c w =
      (.ok (none, some e), (claimsStep t tok ctx c w).2.1, (claimsStep t tok ctx c w).2.2) := by
  simp only [accessStep, refreshStep, claimsStep] at h2 h3 h4
  simp [oAuth2Token.CredentialsConfig, htok, h1, h2, h3, h4, accessStep, refreshStep, claimsStep]

/-- The path on which the claims resolution answers nil without error. -/
theorem CredentialsConfig_claims_nil (t : oAuth2Token σ) (ctx : Context) (c : Cipher σ)
    (w : World σ) (tok : Token) (htok : t.token = some tok)
    (h1 : (idTokenStep tok ctx c w).1.2 = none)
    (h2 : (accessStep tok ctx c w).1.2 = none) (h3 : (refreshStep tok ctx c w).1.2 = none)
    (h4 : (claimsStep t tok ctx c w).1.2 = none) (h5 : (claimsStep t tok ctx c w).1.1 = none) :
    t.CredentialsConfig ctx c w =
      (.error Panic.nilDereference, (claimsStep t tok ctx c w).2.1, (claimsStep t tok ctx c w).2.2) := by
  simp only [accessStep, refreshStep, claimsStep] at h2 h3 h4 h5
  simp [oAuth2Token.CredentialsConfig, htok, h1, h2, h3, h4, h5, accessStep, refreshStep, claimsStep]

/-- The path on which the bundle is assembled. -/
theorem CredentialsConfig_bundle (t : oAuth2Token σ) (ctx : Context) (c : Cipher σ)
    (w : World σ) (tok : Token) (htok : t.token = some tok)
    (cl : oidc.Claims) (h1 : (idTokenStep tok ctx c w).1.2 = none)
    (h2 : (accessStep tok ctx c w).1.2 = none) (h3 : (refreshStep tok ctx c w).1.2 = none)
    (h4 : (claimsStep t tok ctx c w).1.2 = none) (h5 : (claimsStep t tok ctx c w).1.1 = some cl) :
    t.CredentialsConfig ctx c w =
      (.ok (some { Subject := cl.Subject
                   InitialAccessToken := (accessStep tok ctx c w).1.1
                   InitialRefreshToken := (refreshStep tok ctx c w).1.1
                   InitialIDToken := (idTokenStep tok ctx c w).1.1 }, none),
        (claimsStep t tok ctx c w).2.1, (claimsStep t tok ctx c w).2.2) := by
  simp only [accessStep, refreshStep, claimsStep] at h2 h3 h4 h5
  simp [oAuth2Token.CredentialsConfig, htok, h1, h2, h3, h4, h5, accessStep, refreshStep, claimsStep]

/-- A returned bundle comes from the path on which all four steps succeeded. -/
theorem CredentialsConfig_bundle_inv (t : oAuth2Token σ) (ctx : Context) (c : Cipher σ)
    (w : World σ) (tok : Token) (htok : t.token = some tok)
    (b : ProviderCredentialsConfig) (e : Option Error)
    (h : (t.CredentialsConfig ctx c w).1 = .ok (some b, e)) :
    e = none ∧ (idTokenStep tok ctx c w).1.2 = none ∧ (accessStep tok ctx c w).1.2 = none ∧
      (refreshStep tok ctx c w).1.2 = none ∧ (claimsStep t tok ctx c w).1.2 = none ∧
      ∃ cl, (claimsStep t tok ctx c w).1.1 = some cl ∧
        b = { Subject := cl.Subject
              InitialAccessToken := (accessStep tok ctx c w).1.1
              InitialRefreshToken := (refreshStep tok ctx c w).1.1
              InitialIDToken := (idTokenStep tok ctx c w).1.1 } := by
  rcases h1 : (idTokenStep tok ctx c w).1.2 with _ | e1
  · rcases h2 : (accessStep tok ctx c w).1.2 with _ | e2
    · rcases h3 : (refreshStep tok ctx c w).1.2 with _ | e3
      · rcases h4 : (claimsStep t tok ctx c w).1.2 with _ | e4
        · rcases h5 : (claimsStep t tok ctx c w).1.1 with _ | cl
          · rw [CredentialsConfig_claims_nil t ctx c w tok htok h1 h2 h3 h4 h5] at h
            simp at h
          · rw [CredentialsConfig_bundle t ctx c w tok htok cl h1 h2 h3 h4 h5] at h
            simp only [Except.ok.injEq, Prod.mk.injEq, Option.some.injEq] at h
            exact ⟨h.2.symm, rfl, rfl, rfl, rfl, cl, rfl, h.1.symm⟩
        · rw [CredentialsConfig_claims_err t ctx c w tok htok e4 h1 h2 h3 h4] at h
          simp at h
      · rw [CredentialsConfig_refresh_err t ctx c w tok htok e3 h1 h2 h3] at h
        simp at h
    · rw [CredentialsConfig_access_err t ctx c w tok htok e2 h1 h2] at h
      simp at h
  · rw [CredentialsConfig_idToken_err t ctx c w tok htok e1 h1] at h
    simp at h

/-! ## The trace of `CredentialsConfig` -/

/-- The trace after the id_token step. -/
theorem idTokenStep_trace (tok : Token) (ctx : Context) (c : Cipher σ) (w : World σ) :
    (idTokenStep tok ctx c w).2.trace = w.trace ++ idTokenEvents tok ctx c w := by
  unfold idTokenStep idTokenEvents
  split <;> simp [Cipher.callEncrypt]

/-- The trace after the encryption of the access token. -/
theorem accessStep_trace (tok : Token) (ctx : Context) (c : Cipher σ) (w : World σ) :
    (accessStep tok ctx c w).2.trace =
      (idTokenStep tok ctx c w).2.trace ++
        [Event.encrypt (bytes tok.AccessToken) (accessStep tok ctx c w).1] := rfl

/-- The trace after the encryption of the refresh token. -/
theorem refreshStep_trace (tok : Token) (ctx : Context) (c : Cipher σ) (w : World σ) :
    (refreshStep tok ctx c w).2.trace =
      (accessStep tok ctx c w).2.trace ++
        [Event.encrypt (bytes tok.RefreshToken) (refreshStep tok ctx c w).1] := rfl

/-- The trace after the claims resolution of `CredentialsConfig`. -/
theorem claimsStep_trace (t : oAuth2Token σ) (tok : Token) (ctx : Context) (c : Cipher σ)
    (w : World σ) :
    (claimsStep t tok ctx c w).2.2.trace =
      (refreshStep tok ctx c w).2.trace ++ claimsEvents t ctx (refreshStep tok ctx c w).2 :=
  Claims_trace t ctx _

/-- The trace after `CredentialsConfig` is the trace before it followed by
`credentialsConfigEvents`. -/
theorem CredentialsConfig_trace (t : oAuth2Token σ) (ctx : Context) (c : Cipher σ)
    (w : World σ) :
    (t.CredentialsConfig ctx c w).2.2.trace = w.trace ++ credentialsConfigEvents t ctx c w := by
  rcases htok : t.token with _ | tok
  · simp [CredentialsConfig_nil_token t ctx c w htok, credentialsConfigEvents, htok]
  simp only [credentialsConfigEvents, htok]
  rcases h1 : (idTokenStep tok ctx c w).1.2 with _ | e1
  · rcases h2 : (accessStep tok ctx c w).1.2 with _ | e2
    · rcases h3 : (refreshStep tok ctx c w).1.2 with _ | e3
      · have htr : (t.CredentialsConfig ctx c w).2.2.trace =
            (claimsStep t tok ctx c w).2.2.trace := by
          rcases h4 : (claimsStep t tok ctx c w).1.2 with _ | e4
          · rcases h5 : (claimsStep t tok ctx c w).1.1 with _ | cl
            · rw [CredentialsConfig_claims_nil t ctx c w tok htok h1 h2 h3 h4 h5]
            · rw [CredentialsConfig_bundle t ctx c w tok htok cl h1 h2 h3 h4 h5]
          · rw [CredentialsConfig_claims_err t ctx c w tok htok e4 h1 h2 h3 h4]
        rw [htr, claimsStep_trace, refreshStep_trace, accessStep_trace, idTokenStep_trace]
        simp
      · rw [CredentialsConfig_refresh_err t ctx c w tok htok e3 h1 h2 h3, refreshStep_trace,
          accessStep_trace, idTokenStep_trace]
        simp
    · rw [CredentialsConfig_access_err t ctx c w tok htok e2 h1 h2, accessStep_trace,
        idTokenStep_trace]
      simp
  · rw [CredentialsConfig_idToken_err t ctx c w tok htok e1 h1, idTokenStep_trace]
    simp

/-- The token after `CredentialsConfig` is the one `Claims` leaves when the three
encryptions succeeded, and the one before the call otherwise. -/
theorem CredentialsConfig_token (t : oAuth2Token σ) (ctx : Context) (c : Cipher σ)
    (w : World σ) (tok : Token) (htok : t.token = some tok) :
    ((idTokenStep tok ctx c w).1.2 = none ∧ (accessStep tok ctx c w).1.2 = none ∧
        (refreshStep tok ctx c w).1.2 = none ∧
        (t.CredentialsConfig ctx c w).2.1 = (claimsStep t tok ctx c w).2.1 ∧
        credentialsConfigEvents t ctx c w =
          idTokenEvents tok ctx c w ++
            Event.encrypt (bytes tok.AccessToken) (accessStep tok ctx c w).1 ::
            Event.encrypt (bytes tok.RefreshToken) (refreshStep tok ctx c w).1 ::
            claimsEvents t ctx (refreshStep tok ctx c w).2) ∨
    (((idTokenStep tok ctx c w).1.2 ≠ none ∨ (accessStep tok ctx c w).1.2 ≠ none ∨
        (refreshStep tok ctx c w).1.2 ≠ none) ∧
      (t.CredentialsConfig ctx c w).2.1 = t ∧
      ∀ e ∈ credentialsConfigEvents t ctx c w, e.isEncrypt = true) := by
  have hid : ∀ e ∈ idTokenEvents tok ctx c w, e.isEncrypt = true := by
    intro e he
    unfold idTokenEvents at he
    split at he <;> simp at he
    subst he
    rfl
  simp only [credentialsConfigEvents, htok]
  rcases h1 : (idTokenStep tok ctx c w).1.2 with _ | e1
  · rcases h2 : (accessStep tok ctx c w).1.2 with _ | e2
    · rcases h3 : (refreshStep tok ctx c w).1.2 with _ | e3
      · left
        refine ⟨rfl, rfl, rfl, ?_, rfl⟩
        rcases h4 : (claimsStep t tok ctx c w).1.2 with _ | e4
        · rcases h5 : (claimsStep t tok ctx c w).1.1 with _ | cl
          · rw [CredentialsConfig_claims_nil t ctx c w tok htok h1 h2 h3 h4 h5]
          · rw [CredentialsConfig_bundle t ctx c w tok htok cl h1 h2 h3 h4 h5]
        · rw [CredentialsConfig_claims_err t ctx c w tok htok e4 h1 h2 h3 h4]
      · right
        rw [CredentialsConfig_refresh_err t ctx c w tok htok e3 h1 h2 h3]
        refine ⟨by simp, rfl, ?_⟩
        intro e he
        simp only [List.mem_append, List.mem_cons, List.mem_nil_iff, or_false] at he
        rcases he with he | he | he
        · exact hid e he
        · subst he; rfl
        · subst he; rfl
    · right
      rw [CredentialsConfig_access_err t ctx c w tok htok e2 h1 h2]
      refine ⟨by simp, rfl, ?_⟩
      intro e he
      simp only [List.mem_append, List.mem_cons, List.mem_nil_iff, or_false] at he
      rcases he with he | he
      · exact hid e he
      · subst he; rfl
  · right
    rw [CredentialsConfig_idToken_err t ctx c w tok htok e1 h1]
    refine ⟨by simp, rfl, ?_⟩
    intro e he
    simp only [List.append_nil] at he
    exact hid e he

/-! ## Counting the calls to the provider -/

/-- A resolution is a call to the provider's claim resolution. -/
theorem Event.isProviderClaims_of_isResolved (e : Event) (h : e.isResolved = true) :
    e.isProviderClaims = true := by
  unfold Event.isResolved at h
  split at h
  · rfl
  · simp at h

/-- There are no more resolutions than invocations. -/
theorem resolutions_le_claimsInvocations (tr : List Event) :
    resolutions tr ≤ claimsInvocations tr :=
  List.countP_mono_left fun e _ h => Event.isProviderClaims_of_isResolved e h

/-- A trace of cipher calls has no call to the provider. -/
theorem claimsInvocations_of_encrypt (tr : List Event) (h : ∀ e ∈ tr, e.isEncrypt = true) :
    claimsInvocations tr = 0 := by
  unfold claimsInvocations
  rw [List.countP_eq_zero]
  intro e he
  have := h e he
  cases e <;> simp_all [Event.isEncrypt, Event.isProviderClaims]

/-- Invocations add up over the parts of a trace. -/
theorem claimsInvocations_append (a b : List Event) :
    claimsInvocations (a ++ b) = claimsInvocations a + claimsInvocations b := by
  simp [claimsInvocations]

/-- Resolutions add up over the parts of a trace. -/
theorem resolutions_append (a b : List Event) :
    resolutions (a ++ b) = resolutions a + resolutions b := by
  simp [resolutions]

/-- The id_token step calls nothing but the cipher. -/
theorem idTokenEvents_encrypt (tok : Token) (ctx : Context) (c : Cipher σ) (w : World σ) :
    ∀ e ∈ idTokenEvents tok ctx c w, e.isEncrypt = true := by
  intro e he
  unfold idTokenEvents at he
  split at he <;> simp at he
  subst he
  rfl

/-- The calls to the provider that `CredentialsConfig` makes are those of its call
of `Claims`, when it gets that far. -/
theorem credentialsConfigEvents_count (t : oAuth2Token σ) (ctx : Context) (c : Cipher σ)
    (w : World σ) (tok : Token)
    (h : credentialsConfigEvents t ctx c w =
      idTokenEvents tok ctx c w ++
        Event.encrypt (bytes tok.AccessToken) (accessStep tok ctx c w).1 ::
        Event.encrypt (bytes tok.RefreshToken) (refreshStep tok ctx c w).1 ::
        claimsEvents t ctx (refreshStep tok ctx c w).2) :
    claimsInvocations (credentialsConfigEvents t ctx c w) =
        claimsInvocations (claimsEvents t ctx (refreshStep tok ctx c w).2) ∧
      resolutions (credentialsConfigEvents t ctx c w) =
        resolutions (claimsEvents t ctx (refreshStep tok ctx c w).2) := by
  have h0 := claimsInvocations_of_encrypt _ (idTokenEvents_encrypt tok ctx c w)
  have h1 : resolutions (idTokenEvents tok ctx c w) = 0 :=
    Nat.le_zero.mp (h0 ▸ resolutions_le_claimsInvocations _)
  rw [h]
  constructor
  · rw [claimsInvocations_append, h0]
    simp [claimsInvocations, Event.isProviderClaims]
  · rw [resolutions_append, h1]
    simp [resolutions, Event.isResolved]

/-- What one step does to the token and to the trace. -/
theorem Step.run_facts (x : Step σ) (t : oAuth2Token σ) (w : World σ) :
    ∃ evs, (x.run (t, w)).2.trace = w.trace ++ evs ∧
      (x.run (t, w)).1.op = t.op ∧ (x.run (t, w)).1.token = t.token ∧
      claimsInvocations evs ≤ 1 ∧
      (t.claims ≠ none → (x.run (t, w)).1 = t ∧ claimsInvocations evs = 0) ∧
      ((x.run (t, w)).1.claims = none → (x.run (t, w)).1 = t ∧ resolutions evs = 0) := by
  cases x with
  | claims ctx =>
    obtain ⟨h1, h2, h3, h4, h5⟩ := Claims_step t ctx w
    refine ⟨claimsEvents t ctx w, Claims_trace t ctx w, h1, h2, h3, ?_, h5⟩
    intro hc
    obtain ⟨ha, hb⟩ := h4 hc
    exact ⟨ha, by simp [hb, claimsInvocations]⟩
  | credentialsConfig ctx c =>
    refine ⟨credentialsConfigEvents t ctx c w, CredentialsConfig_trace t ctx c w, ?_⟩
    simp only [Step.run]
    rcases htok : t.token with _ | tok
    · have hnil : credentialsConfigEvents t ctx c w = [] := by
        simp [credentialsConfigEvents, htok]
      rw [CredentialsConfig_nil_token t ctx c w htok, hnil]
      simp [claimsInvocations, resolutions, htok]
    rcases CredentialsConfig_token t ctx c w tok htok with ⟨-, -, -, ht, hev⟩ | ⟨-, ht, hev⟩
    · obtain ⟨hci, hre⟩ := credentialsConfigEvents_count t ctx c w tok hev
      obtain ⟨h1, h2, h3, h4, h5⟩ := Claims_step t ctx (refreshStep tok ctx c w).2
      rw [ht, hci, hre]
      refine ⟨h1, h2.trans htok, h3, ?_, h5⟩
      intro hc
      obtain ⟨ha, hb⟩ := h4 hc
      exact ⟨ha, by simp [hb, claimsInvocations]⟩
    · have h0 := claimsInvocations_of_encrypt _ hev
      have h1 : resolutions (credentialsConfigEvents t ctx c w) = 0 :=
        Nat.le_zero.mp (h0 ▸ resolutions_le_claimsInvocations _)
      rw [ht, h0, h1]
      simp [htok]
  | world f =>
    exact ⟨[], by simp [Step.run], rfl, rfl, by simp [claimsInvocations],
      fun _ => ⟨rfl, by simp [claimsInvocations]⟩, fun _ => ⟨rfl, by simp [resolutions]⟩⟩

/-- A trace with at most one invocation has none after a resolution. -/
theorem NoCallAfterResolved_of_le_one (tr : List Event) (h : claimsInvocations tr ≤ 1) :
    NoCallAfterResolved tr := by
  intro pre e post htr he
  subst htr
  have hp := Event.isProviderClaims_of_isResolved e he
  simp only [claimsInvocations, List.countP_append, List.countP_cons, hp, if_true] at h ⊢
  omega

/-- Two traces without a call after a resolution join into one, when the first has no
resolution or the second no invocation. -/
theorem NoCallAfterResolved_append (a b : List Event) (ha : NoCallAfterResolved a)
    (hb : NoCallAfterResolved b) (h : resolutions a = 0 ∨ claimsInvocations b = 0) :
    NoCallAfterResolved (a ++ b) := by
  intro pre e post htr he
  rcases List.append_eq_append_iff.mp htr with ⟨a', hpre, hb'⟩ | ⟨c', ha', hc'⟩
  · exact hb a' e post hb' he
  · cases c' with
    | nil =>
      simp only [List.nil_append] at hc'
      exact hb [] e post (by simpa using hc'.symm) he
    | cons x xs =>
      simp only [List.cons_append, List.cons.injEq] at hc'
      obtain ⟨hx, hpost⟩ := hc'
      subst hx
      rcases h with h | h
      · exfalso
        rw [ha', resolutions_append] at h
        simp [resolutions, List.countP_cons, he] at h
      · rw [hpost, claimsInvocations_append, h, ha pre e xs ha' he]

/-- What a sequence of steps does to the token and to the trace. -/
theorem runSteps_facts (xs : List (Step σ)) (t : oAuth2Token σ) (w : World σ) :
    ∃ evs, (runSteps xs (t, w)).2.trace = w.trace ++ evs ∧
      (runSteps xs (t, w)).1.op = t.op ∧ (runSteps xs (t, w)).1.token = t.token ∧
      (t.claims ≠ none → (runSteps xs (t, w)).1 = t ∧ claimsInvocations evs = 0) ∧
      ((runSteps xs (t, w)).1.claims = none → (runSteps xs (t, w)).1 = t ∧ resolutions evs = 0) ∧
      resolutions evs ≤ 1 ∧ NoCallAfterResolved evs := by
  induction xs generalizing t w with
  | nil =>
    refine ⟨[], by simp [runSteps], rfl, rfl, fun _ => ⟨rfl, by simp [claimsInvocations]⟩,
      fun _ => ⟨rfl, by simp [resolutions]⟩, by simp [resolutions], ?_⟩
    intro pre e post h
    simp at h
  | cons x xs ih =>
    obtain ⟨evs1, htr1, hop1, htok1, hle1, hset1, hun1⟩ := Step.run_facts x t w
    obtain ⟨evs2, htr2, hop2, htok2, hset2, hun2, hres2, hno2⟩ :=
      ih (x.run (t, w)).1 (x.run (t, w)).2
    have hrun : runSteps (x :: xs) (t, w) = runSteps xs ((x.run (t, w)).1, (x.run (t, w)).2) := rfl
    rw [hrun]
    have hr1 := resolutions_le_claimsInvocations evs1
    have hr2 := resolutions_le_claimsInvocations evs2
    have hor : resolutions evs1 = 0 ∨ claimsInvocations evs2 = 0 := by
      by_cases hc : (x.run (t, w)).1.claims = none
      · exact Or.inl (hun1 hc).2
      · exact Or.inr (hset2 hc).2
    refine ⟨evs1 ++ evs2, ?_, hop2.trans hop1, htok2.trans htok1, ?_, ?_, ?_, ?_⟩
    · rw [htr2, htr1, List.append_assoc]
    · intro hc
      obtain ⟨ha, hb⟩ := hset1 hc
      obtain ⟨hc2, hd⟩ := hset2 (by rw [ha]; exact hc)
      exact ⟨hc2.trans ha, by rw [claimsInvocations_append, hb, hd]⟩
    · intro hc
      obtain ⟨ha, hb⟩ := hun2 hc
      obtain ⟨hc2, hd⟩ := hun1 (by rw [← ha]; exact hc)
      exact ⟨ha.trans hc2, by rw [resolutions_append, hb, hd]⟩
    · rw [resolutions_append]
      rcases hor with h | h <;> omega
    · exact NoCallAfterResolved_append evs1 evs2 (NoCallAfterResolved_of_le_one evs1 hle1) hno2 hor

/-! ## The identity token step -/

/-- The id_token step when the extension value is a string. -/
theorem idTokenStep_of_string (tok : Token) (ctx : Context) (c : Cipher σ) (w : World σ)
    (s : String) (h : tok.Extra "id_token" = some (ExtraValue.str s)) :
    idTokenStep tok ctx c w = c.callEncrypt ctx (bytes s) w ∧
      idTokenEvents tok ctx c w = [Event.encrypt (bytes s) (c.Encrypt ctx (bytes s) w.state).1] := by
  simp [idTokenStep, idTokenEvents, h]

/-- The id_token step when the extension value is absent or not a string. -/
theorem idTokenStep_of_not_string (tok : Token) (ctx : Context) (c : Cipher σ)
    (w : World σ) (h : ∀ s, tok.Extra "id_token" ≠ some (ExtraValue.str s)) :
    idTokenStep tok ctx c w = (("", none), w) ∧ idTokenEvents tok ctx c w = [] := by
  unfold idTokenStep idTokenEvents
  constructor <;> split <;> simp_all

/-- `Claims` makes no call to the cipher. -/
theorem filter_isEncrypt_claimsEvents (t : oAuth2Token σ) (ctx : Context) (w : World σ) :
    (claimsEvents t ctx w).filter Event.isEncrypt = [] := by
  unfold claimsEvents
  split <;> simp [Event.isEncrypt]

/-- On a form-encoded response without the key, `Extra` answers the empty string. -/
theorem Token.Extra_form_absent (tok : Token) (vals : Values) (key : String)
    (hraw : tok.raw = RawExtras.form vals) (h : ¬ vals.Has key) :
    tok.Extra key = some (ExtraValue.str "") := by
  have hg := Values.Get_of_not_Has vals key h
  unfold Token.Extra
  rw [hraw]
  simp only [hg]
  rfl

/-- On a JSON response `Extra` answers the entry of the key. -/
theorem Token.Extra_json (tok : Token) (m : List (String × ExtraValue)) (key : String)
    (hraw : tok.raw = RawExtras.json m) : tok.Extra key = m.lookup key := by
  unfold Token.Extra
  rw [hraw]

/-! ## The claims about the issued token -/

/-- C1: `CredentialsConfig` is all-or-nothing. Whatever it returns is either an error
with no bundle or a bundle with no error; on a token whose raw token is `tok`, a
bundle is returned only when the id_token step, the two encryptions and the claims
resolution all succeeded; when one of the steps it runs fails, it returns that
step's error and no bundle; and when all succeed with a claims value it returns a
bundle. In particular a cipher failure on the refresh token is returned with no bundle
after the access token was encrypted, whatever the claims resolution would do. -/
theorem CredentialsConfig_all_or_nothing (t : oAuth2Token σ) (ctx : Context) (c : Cipher σ)
    (w : World σ) (tok : Token) :
    (∀ b e, (t.CredentialsConfig ctx c w).1 = .ok (b, e) →
      (b = none ∧ e ≠ none) ∨ (b ≠ none ∧ e = none)) ∧
    (t.token = some tok →
      (∀ b e, (t.CredentialsConfig ctx c w).1 = .ok (some b, e) →
        (idTokenStep tok ctx c w).1.2 = none ∧ (accessStep tok ctx c w).1.2 = none ∧
          (refreshStep tok ctx c w).1.2 = none ∧ (claimsStep t tok ctx c w).1.2 = none) ∧
      (∀ err, (idTokenStep tok ctx c w).1.2 = some err →
        (t.CredentialsConfig ctx c w).1 = .ok (none, some err)) ∧
      (∀ err, (idTokenStep tok ctx c w).1.2 = none → (accessStep tok ctx c w).1.2 = some err →
        (t.CredentialsConfig ctx c w).1 = .ok (none, some err)) ∧
      (∀ err, (idTokenStep tok ctx c w).1.2 = none → (accessStep tok ctx c w).1.2 = none →
        (refreshStep tok ctx c w).1.2 = some err →
        (t.CredentialsConfig ctx c w).1 = .ok (none, some err)) ∧
      (∀ err, (idTokenStep tok ctx c w).1.2 = none → (accessStep tok ctx c w).1.2 = none →
        (refreshStep tok ctx c w).1.2 = none → (claimsStep t tok ctx c w).1.2 = some err →
        (t.CredentialsConfig ctx c w).1 = .ok (none, some err)) ∧
      (∀ cl, (idTokenStep tok ctx c w).1.2 = none → (accessStep tok ctx c w).1.2 = none →
        (refreshStep tok ctx c w).1.2 = none → (claimsStep t tok ctx c w).1 = (some cl, none) →
        ∃ b, (t.CredentialsConfig ctx c w).1 = .ok (some b, none))) := by
  constructor
  · intro b e h
    rcases htok : t.token with _ | tk
    · rw [CredentialsConfig_nil_token t ctx c w htok] at h
      simp at h
    cases b with
    | none =>
      left
      refine ⟨rfl, ?_⟩
      rintro rfl
      rcases h1 : (idTokenStep tk ctx c w).1.2 with _ | e1
      · rcases h2 : (accessStep tk ctx c w).1.2 with _ | e2
        · rcases h3 : (refreshStep tk ctx c w).1.2 with _ | e3
          · rcases h4 : (claimsStep t tk ctx c w).1.2 with _ | e4
            · rcases h5 : (claimsStep t tk ctx c w).1.1 with _ | cl
              · rw [CredentialsConfig_claims_nil t ctx c w tk htok h1 h2 h3 h4 h5] at h
                simp at h
              · rw [CredentialsConfig_bundle t ctx c w tk htok cl h1 h2 h3 h4 h5] at h
                simp at h
            · rw [CredentialsConfig_claims_err t ctx c w tk htok e4 h1 h2 h3 h4] at h
              simp at h
          · rw [CredentialsConfig_refresh_err t ctx c w tk htok e3 h1 h2 h3] at h
            simp at h
        · rw [CredentialsConfig_access_err t ctx c w tk htok e2 h1 h2] at h
          simp at h
      · rw [CredentialsConfig_idToken_err t ctx c w tk htok e1 h1] at h
        simp at h
    | some b =>
      right
      exact ⟨by simp, (CredentialsConfig_bundle_inv t ctx c w tk htok b e h).1⟩
  · intro htok
    refine ⟨?_, ?_, ?_, ?_, ?_, ?_⟩
    · intro b e h
      obtain ⟨-, h1, h2, h3, h4, -⟩ := CredentialsConfig_bundle_inv t ctx c w tok htok b e h
      exact ⟨h1, h2, h3, h4⟩
    · intro err h1
      rw [CredentialsConfig_idToken_err t ctx c w tok htok err h1]
    · intro err h1 h2
      rw [CredentialsConfig_access_err t ctx c w tok htok err h1 h2]
    · intro err h1 h2 h3
      rw [CredentialsConfig_refresh_err t ctx c w tok htok err h1 h2 h3]
    · intro err h1 h2 h3 h4
      rw [CredentialsConfig_claims_err t ctx c w tok htok err h1 h2 h3 h4]
    · intro cl h1 h2 h3 h4
      rw [CredentialsConfig_bundle t ctx c w tok htok cl h1 h2 h3 (by rw [h4]) (by rw [h4])]
      exact ⟨_, rfl⟩

/-- C1 on a token with an empty refresh token and a cipher that refuses the empty
plaintext: the access token is encrypted, the claims would resolve, and the call
returns the cipher's error and no bundle. -/
theorem CredentialsConfig_all_or_nothing_witness :
    (accessStep sampleToken ⟨0⟩ nonEmptyCipher freshWorld).1.2 = none ∧
    ((issued (flakyProvider 0) sampleToken).Claims ⟨0⟩ freshWorld).1 = (some aliceClaims, none) ∧
    ((issued (flakyProvider 0) sampleToken).CredentialsConfig ⟨0⟩ nonEmptyCipher freshWorld).1 =
      .ok (none, some (Error.external "cipher: empty plaintext")) :=
  ⟨rfl, rfl,
    ((CredentialsConfig_all_or_nothing (issued (flakyProvider 0) sampleToken) ⟨0⟩ nonEmptyCipher
      freshWorld sampleToken).2 rfl).2.2.2.1 _ rfl rfl rfl⟩

/-- C2, as stated, fails: on a provider whose claim resolution fails, two calls of
`Claims` on one issued token invoke it twice. -/
theorem claims_resolution_invoked_twice :
    ¬ claimsInvocations (runSteps [Step.claims ⟨0⟩, Step.claims ⟨0⟩]
        (issued (flakyProvider 2) plainToken, freshWorld)).2.trace ≤ 1 := by
  decide

/-- C2, amended: over every sequence of calls of `Claims` and `CredentialsConfig` on
an issued token, with the world changing in between, the provider's claim
resolution answers a claims value without error at most once, no invocation of it
follows that one, and it is not invoked at all when the cache is set from the start. -/
theorem claims_resolved_at_most_once (xs : List (Step σ)) (t : oAuth2Token σ) (w : World σ) :
    ∃ evs, (runSteps xs (t, w)).2.trace = w.trace ++ evs ∧
      resolutions evs ≤ 1 ∧ NoCallAfterResolved evs ∧
      (t.claims ≠ none → claimsInvocations evs = 0) := by
  obtain ⟨evs, htr, -, -, hset, -, hres, hno⟩ := runSteps_facts xs t w
  exact ⟨evs, htr, hres, hno, fun h => (hset h).2⟩

/-- C2, amended: on a fresh token and a provider that fails twice, four calls invoke
the provider three times, of which one resolves; on a token whose cache is set no
call invokes the provider. -/
theorem claims_resolved_at_most_once_witness :
    claimsInvocations (runSteps [Step.claims ⟨0⟩, Step.claims ⟨1⟩,
        Step.credentialsConfig ⟨2⟩ lengthCipher, Step.claims ⟨3⟩]
      (issued (flakyProvider 2) plainToken, freshWorld)).2.trace = 3 ∧
    resolutions (runSteps [Step.claims ⟨0⟩, Step.claims ⟨1⟩,
        Step.credentialsConfig ⟨2⟩ lengthCipher, Step.claims ⟨3⟩]
      (issued (flakyProvider 2) plainToken, freshWorld)).2.trace = 1 ∧
    claimsInvocations (runSteps [Step.claims ⟨0⟩, Step.credentialsConfig ⟨1⟩ lengthCipher,
        Step.world (fun _ => 0), Step.claims ⟨2⟩]
      ({ issued (flakyProvider 2) plainToken with claims := some aliceClaims },
        freshWorld)).2.trace = 0 := by
  refine ⟨by decide, by decide, ?_⟩
  obtain ⟨evs, htr, -, -, h⟩ :=
    claims_resolved_at_most_once [Step.claims ⟨0⟩, Step.credentialsConfig ⟨1⟩ lengthCipher,
        Step.world (fun _ => 0), Step.claims ⟨2⟩]
      ({ issued (flakyProvider 2) plainToken with claims := some aliceClaims }) freshWorld
  rw [htr]
  simpa [freshWorld] using h (by simp)

/-- C3: once a call of `Claims` has returned a claims value `c` and no error, every
later call of `Claims` on the instance, after any further steps and in any state
of the world, returns `c` and no error and leaves the world, its trace included,
as it was: the provider is not invoked. -/
theorem Claims_memoised (t : oAuth2Token σ) (ctx : Context) (w : World σ) (c : oidc.Claims)
    (t' : oAuth2Token σ) (w' : World σ) (h : t.Claims ctx w = ((some c, none), t', w'))
    (xs : List (Step σ)) (ctx2 : Context) (w2 : World σ) :
    (runSteps xs (t', w')).1.Claims ctx2 w2 = ((some c, none), (runSteps xs (t', w')).1, w2) := by
  have hc : t'.claims = some c := by
    have h1 := (Claims_returns_cache t ctx w c (by rw [h])).1
    rw [h] at h1
    exact h1
  obtain ⟨_, _, _, _, hset, _⟩ := runSteps_facts xs t' w'
  have ht : (runSteps xs (t', w')).1 = t' := (hset (by simp [hc])).1
  rw [ht]
  exact Claims_cached t' ctx2 w2 c hc

/-- C3 on a provider that fails in the state the later call is made in: the first
call resolves the claims of alice, and after further steps a call in a world where
the provider would fail still returns them, with nothing added to the trace. -/
theorem Claims_memoised_witness :
    ((flakyProvider 1).Claims ⟨0⟩ (some plainToken) 0).1 =
      (none, some (Error.external "userinfo unavailable")) ∧
    ((runSteps [Step.world (fun _ => 0), Step.credentialsConfig ⟨1⟩ lengthCipher]
        ((issued (flakyProvider 1) plainToken).Claims ⟨0⟩ ⟨1, []⟩).2).1.Claims ⟨2⟩ freshWorld).1 =
      (some aliceClaims, none) ∧
    ((runSteps [Step.world (fun _ => 0), Step.credentialsConfig ⟨1⟩ lengthCipher]
        ((issued (flakyProvider 1) plainToken).Claims ⟨0⟩ ⟨1, []⟩).2).1.Claims ⟨2⟩
          freshWorld).2.2.trace = [] :=
  ⟨rfl,
    congrArg Prod.fst (Claims_memoised (issued (flakyProvider 1) plainToken) ⟨0⟩ ⟨1, []⟩
      aliceClaims _ _ rfl [Step.world (fun _ => 0), Step.credentialsConfig ⟨1⟩ lengthCipher]
      ⟨2⟩ freshWorld),
    rfl⟩

/-- C4: when the cache is unset and the provider's claim resolution answers an error,
`Claims` returns that error and no claims value, leaves the token as it was, and has
invoked the provider once; the next call of `Claims` on the instance, in any state of
the world, invokes the provider again and returns what that attempt answers: its
error and no claims value, or its claims value and no error. -/
theorem Claims_failure_retries (t : oAuth2Token σ) (ctx : Context) (w : World σ) (e : Error)
    (hc : t.claims = none) (hf : (t.op.Claims ctx t.token w.state).1.2 = some e) :
    (t.Claims ctx w).1 = (none, some e) ∧ (t.Claims ctx w).2.1 = t ∧
    (t.Claims ctx w).2.2.trace =
      w.trace ++ [Event.providerClaims t.token (t.op.Claims ctx t.token w.state).1] ∧
    ∀ (ctx2 : Context) (w2 : World σ),
      ((t.Claims ctx w).2.1.Claims ctx2 w2).2.2.trace =
        w2.trace ++ [Event.providerClaims t.token (t.op.Claims ctx2 t.token w2.state).1] ∧
      ((t.Claims ctx w).2.1.Claims ctx2 w2).1 =
        match (t.op.Claims ctx2 t.token w2.state).1.2 with
        | some e2 => (none, some e2)
        | none => ((t.op.Claims ctx2 t.token w2.state).1.1, none) := by
  rw [Claims_uncached_err t ctx w e hc hf]
  refine ⟨rfl, rfl, rfl, ?_⟩
  intro ctx2 w2
  simp only
  rcases he : (t.op.Claims ctx2 t.token w2.state).1.2 with _ | e2
  · rw [Claims_uncached_ok t ctx2 w2 hc he]
    exact ⟨rfl, rfl⟩
  · rw [Claims_uncached_err t ctx2 w2 e2 hc he]
    exact ⟨rfl, rfl⟩

/-- C4 on a provider whose first resolution fails and whose second one succeeds. -/
theorem Claims_failure_retries_witness :
    ((issued (flakyProvider 1) plainToken).Claims ⟨0⟩ freshWorld).1 =
      (none, some (Error.external "userinfo unavailable")) ∧
    ((issued (flakyProvider 1) plainToken).Claims ⟨0⟩ freshWorld).2.1.claims = none ∧
    claimsInvocations
      ((((issued (flakyProvider 1) plainToken).Claims ⟨0⟩ freshWorld).2.1.Claims ⟨1⟩
        ((issued (flakyProvider 1) plainToken).Claims ⟨0⟩ freshWorld).2.2).2.2.trace) = 2 ∧
    ((((issued (flakyProvider 1) plainToken).Claims ⟨0⟩ freshWorld).2.1.Claims ⟨1⟩
      ((issued (flakyProvider 1) plainToken).Claims ⟨0⟩ freshWorld).2.2).1) =
        (some aliceClaims, none) :=
  ⟨(Claims_failure_retries (issued (flakyProvider 1) plainToken) ⟨0⟩ freshWorld
      (Error.external "userinfo unavailable") rfl rfl).1,
    rfl, by decide,
    ((Claims_failure_retries (issued (flakyProvider 1) plainToken) ⟨0⟩ freshWorld
      (Error.external "userinfo unavailable") rfl rfl).2.2.2 ⟨1⟩
        ((issued (flakyProvider 1) plainToken).Claims ⟨0⟩ freshWorld).2.2).2⟩

/-- C5, as stated, fails: on a form-encoded token response without `id_token`, `Extra`
answers the empty string, the cipher is called on the empty plaintext first, and
`InitialIDToken` is the ciphertext of that call, not the empty string; a cipher that
refuses the empty plaintext makes the call fail. -/
theorem CredentialsConfig_form_without_idToken :
    formToken.raw = RawExtras.form ⟨[("access_token", ["at"]), ("token_type", ["bearer"]),
      ("refresh_token", ["rt"])]⟩ ∧
    ¬ (Values.mk [("access_token", ["at"]), ("token_type", ["bearer"]),
      ("refresh_token", ["rt"])]).Has "id_token" ∧
    ((issued (flakyProvider 0) formToken).CredentialsConfig ⟨0⟩ lengthCipher freshWorld).1 =
      .ok (some ⟨"alice", "enc2", "enc2", "enc0"⟩, none) ∧
    ((issued (flakyProvider 0) formToken).CredentialsConfig ⟨0⟩ lengthCipher
        freshWorld).2.2.trace =
      [Event.encrypt [] ("enc0", none), Event.encrypt [97, 116] ("enc2", none),
        Event.encrypt [114, 116] ("enc2", none),
        Event.providerClaims (some formToken) (some aliceClaims, none)] ∧
    ((issued (flakyProvider 0) formToken).CredentialsConfig ⟨0⟩ nonEmptyCipher freshWorld).1 =
      .ok (none, some (Error.external "cipher: empty plaintext")) := by
  refine ⟨rfl, ?_, rfl, by decide, rfl⟩
  simp [Values.Has]

/-- C5, amended: in every call of `CredentialsConfig` that returns a bundle, on a token
whose raw token is `tok`: when `Extra` answers nil or a value that is not a string for
`id_token`, as on a JSON response without the key, `InitialIDToken` is the empty
string and the calls to the cipher are exactly two, for the access token and for the
refresh token; when it answers a string `s`, `InitialIDToken` is the ciphertext that
the cipher, called first and on the bytes of `s`, returned, and on a form-encoded
response without the key that string is the empty one. -/
theorem CredentialsConfig_InitialIDToken (t : oAuth2Token σ) (ctx : Context) (c : Cipher σ)
    (w : World σ) (tok : Token) (htok : t.token = some tok) (b : ProviderCredentialsConfig)
    (e : Option Error) (h : (t.CredentialsConfig ctx c w).1 = .ok (some b, e)) :
    ((∀ s, tok.Extra "id_token" ≠ some (ExtraValue.str s)) →
      b.InitialIDToken = "" ∧
      ∃ evs, (t.CredentialsConfig ctx c w).2.2.trace = w.trace ++ evs ∧
        evs.filter Event.isEncrypt =
          [Event.encrypt (bytes tok.AccessToken)
              (c.Encrypt ctx (bytes tok.AccessToken) w.state).1,
            Event.encrypt (bytes tok.RefreshToken)
              (c.Encrypt ctx (bytes tok.RefreshToken)
                (c.Encrypt ctx (bytes tok.AccessToken) w.state).2).1]) ∧
    (∀ s, tok.Extra "id_token" = some (ExtraValue.str s) →
      b.InitialIDToken = (c.Encrypt ctx (bytes s) w.state).1.1 ∧
      ∃ evs, (t.CredentialsConfig ctx c w).2.2.trace =
        w.trace ++ Event.encrypt (bytes s) (c.Encrypt ctx (bytes s) w.state).1 :: evs) ∧
    (∀ m, tok.raw = RawExtras.json m → m.lookup "id_token" = none → b.InitialIDToken = "") ∧
    (∀ vals, tok.raw = RawExtras.form vals → ¬ vals.Has "id_token" →
      tok.Extra "id_token" = some (ExtraValue.str "") ∧
      b.InitialIDToken = (c.Encrypt ctx [] w.state).1.1) := by
  obtain ⟨-, h1, h2, h3, h4, cl, -, hb⟩ := CredentialsConfig_bundle_inv t ctx c w tok htok b e h
  have hev : credentialsConfigEvents t ctx c w =
      idTokenEvents tok ctx c w ++
        Event.encrypt (bytes tok.AccessToken) (accessStep tok ctx c w).1 ::
        Event.encrypt (bytes tok.RefreshToken) (refreshStep tok ctx c w).1 ::
        claimsEvents t ctx (refreshStep tok ctx c w).2 := by
    simp [credentialsConfigEvents, htok, h1, h2, h3]
  refine ⟨?_, ?_, ?_, ?_⟩
  · intro hs
    obtain ⟨hstep, hevs⟩ := idTokenStep_of_not_string tok ctx c w hs
    refine ⟨by rw [hb, hstep], credentialsConfigEvents t ctx c w,
      CredentialsConfig_trace t ctx c w, ?_⟩
    rw [hev, hevs]
    simp [Event.isEncrypt, filter_isEncrypt_claimsEvents, accessStep, refreshStep, hstep,
      Cipher.callEncrypt]
  · intro s hs
    obtain ⟨hstep, hevs⟩ := idTokenStep_of_string tok ctx c w s hs
    refine ⟨by rw [hb, hstep]; rfl,
      Event.encrypt (bytes tok.AccessToken) (accessStep tok ctx c w).1 ::
        Event.encrypt (bytes tok.RefreshToken) (refreshStep tok ctx c w).1 ::
        claimsEvents t ctx (refreshStep tok ctx c w).2, ?_⟩
    rw [CredentialsConfig_trace, hev, hevs]
    rfl
  · intro m hraw hm
    have hs : ∀ s, tok.Extra "id_token" ≠ some (ExtraValue.str s) := by
      intro s
      rw [Token.Extra_json tok m "id_token" hraw, hm]
      simp
    rw [hb, (idTokenStep_of_not_string tok ctx c w hs).1]
  · intro vals hraw hv
    have hx := Token.Extra_form_absent tok vals "id_token" hraw hv
    refine ⟨hx, ?_⟩
    rw [hb, (idTokenStep_of_string tok ctx c w "" hx).1]
    rfl

/-- C5, amended, on a JSON response with the identity token `idt`, on a JSON response
without one, on a form-encoded response without one, and on a form-encoded response
whose `id_token` is the text of a number. -/
theorem CredentialsConfig_InitialIDToken_witness :
    ((issued (flakyProvider 0) sampleToken).CredentialsConfig ⟨0⟩ lengthCipher freshWorld).1 =
      .ok (some ⟨"alice", "enc2", "enc0", "enc3"⟩, none) ∧
    (ProviderCredentialsConfig.mk "alice" "enc2" "enc0" "enc3").InitialIDToken =
      (lengthCipher.Encrypt ⟨0⟩ (bytes "idt") freshWorld.state).1.1 ∧
    ((issued (flakyProvider 0) plainToken).CredentialsConfig ⟨0⟩ lengthCipher freshWorld).1 =
      .ok (some ⟨"alice", "enc2", "enc2", ""⟩, none) ∧
    (ProviderCredentialsConfig.mk "alice" "enc2" "enc2" "").InitialIDToken = "" ∧
    (formToken.Extra "id_token" = some (ExtraValue.str "") ∧
      (ProviderCredentialsConfig.mk "alice" "enc2" "enc2" "enc0").InitialIDToken =
        (lengthCipher.Encrypt ⟨0⟩ [] freshWorld.state).1.1) ∧
    formNumberToken.Extra "id_token" = some (ExtraValue.num 12345) ∧
    ((issued (flakyProvider 0) formNumberToken).CredentialsConfig ⟨0⟩ lengthCipher
      freshWorld).1 = .ok (some ⟨"alice", "enc2", "enc2", ""⟩, none) :=
  ⟨rfl,
    ((CredentialsConfig_InitialIDToken (issued (flakyProvider 0) sampleToken) ⟨0⟩ lengthCipher
      freshWorld sampleToken rfl ⟨"alice", "enc2", "enc0", "enc3"⟩ none rfl).2.1 "idt" rfl).1,
    rfl,
    (CredentialsConfig_InitialIDToken (issued (flakyProvider 0) plainToken) ⟨0⟩ lengthCipher
      freshWorld plainToken rfl ⟨"alice", "enc2", "enc2", ""⟩ none rfl).2.2.1 [] rfl rfl,
    (CredentialsConfig_InitialIDToken (issued (flakyProvider 0) formToken) ⟨0⟩ lengthCipher
      freshWorld formToken rfl ⟨"alice", "enc2", "enc2", "enc0"⟩ none rfl).2.2.2
        ⟨[("access_token", ["at"]), ("token_type", ["bearer"]), ("refresh_token", ["rt"])]⟩
        rfl (by simp [Values.Has]),
    by decide,
    rfl⟩

/-- C6: whenever `CredentialsConfig` returns a bundle, the cache of the token holds a
claims value afterwards, the bundle's `Subject` is the `Subject` of that value, every
call of `Claims` on the instance returns that value, and it is the value cached before
the call when there was one, and otherwise the one the provider answered in the call. -/
theorem CredentialsConfig_Subject (t : oAuth2Token σ) (ctx : Context) (c : Cipher σ)
    (w : World σ) (tok : Token) (htok : t.token = some tok) (b : ProviderCredentialsConfig)
    (e : Option Error) (h : (t.CredentialsConfig ctx c w).1 = .ok (some b, e)) :
    ∃ cl, (t.CredentialsConfig ctx c w).2.1.claims = some cl ∧ b.Subject = cl.Subject ∧
      (∀ (ctx2 : Context) (w2 : World σ),
        ((t.CredentialsConfig ctx c w).2.1.Claims ctx2 w2).1 = (some cl, none)) ∧
      (∀ c0, t.claims = some c0 → cl = c0) ∧
      (t.claims = none →
        (t.op.Claims ctx t.token (refreshStep tok ctx c w).2.state).1 = (some cl, none)) := by
  obtain ⟨-, h1, h2, h3, h4, cl, h5, hb⟩ := CredentialsConfig_bundle_inv t ctx c w tok htok b e h
  have ht : (t.CredentialsConfig ctx c w).2.1 = (claimsStep t tok ctx c w).2.1 := by
    rw [CredentialsConfig_bundle t ctx c w tok htok cl h1 h2 h3 h4 h5]
  obtain ⟨hcache, hbefore⟩ := Claims_returns_cache t ctx (refreshStep tok ctx c w).2 cl h5
  refine ⟨cl, by rw [ht]; exact hcache, by rw [hb], ?_, ?_, ?_⟩
  · intro ctx2 w2
    have hcl := Claims_cached (claimsStep t tok ctx c w).2.1 ctx2 w2 cl hcache
    rw [ht, hcl]
  · intro c0 hc0
    rcases hbefore with hn | hs
    · rw [hn] at hc0
      simp at hc0
    · rw [hs] at hc0
      exact Option.some.inj hc0
  · intro hn
    rcases he : (t.op.Claims ctx t.token (refreshStep tok ctx c w).2.state).1.2 with _ | e2
    · have h5' := h5
      unfold claimsStep at h5'
      rw [Claims_uncached_ok t ctx _ hn he] at h5'
      simp only at h5'
      exact Prod.ext h5' he
    · have h4' := h4
      unfold claimsStep at h4'
      rw [Claims_uncached_err t ctx _ e2 hn he] at h4'
      simp at h4'

/-- C6 on a fresh token: the bundle's subject is the one of the claims resolved in the call. -/
theorem CredentialsConfig_Subject_witness :
    ((issued (flakyProvider 0) sampleToken).CredentialsConfig ⟨0⟩ lengthCipher
      freshWorld).2.1.claims = some aliceClaims ∧
    ∃ cl, ((issued (flakyProvider 0) sampleToken).CredentialsConfig ⟨0⟩ lengthCipher
        freshWorld).2.1.claims = some cl ∧
      (ProviderCredentialsConfig.mk "alice" "enc2" "enc0" "enc3").Subject = cl.Subject ∧
      (∀ (ctx2 : Context) (w2 : World Nat),
        (((issued (flakyProvider 0) sampleToken).CredentialsConfig ⟨0⟩ lengthCipher
          freshWorld).2.1.Claims ctx2 w2).1 = (some cl, none)) ∧
      (∀ c0, (issued (flakyProvider 0) sampleToken).claims = some c0 → cl = c0) ∧
      ((issued (flakyProvider 0) sampleToken).claims = none →
        ((issued (flakyProvider 0) sampleToken).op.Claims ⟨0⟩
          (issued (flakyProvider 0) sampleToken).token
          (refreshStep sampleToken ⟨0⟩ lengthCipher freshWorld).2.state).1 = (some cl, none)) :=
  ⟨rfl, CredentialsConfig_Subject (issued (flakyProvider 0) sampleToken) ⟨0⟩ lengthCipher freshWorld
    sampleToken rfl ⟨"alice", "enc2", "enc0", "enc3"⟩ none rfl⟩

/-- C7: on a token whose raw token is `tok`, in every call of `CredentialsConfig`
that gets past the id_token step, the next call to a collaborator is the cipher on
the bytes of the access token, and when that succeeds the one after it is the cipher
on the bytes of the refresh token, which for an empty refresh token is the empty
plaintext; in every returned bundle `InitialAccessToken` and `InitialRefreshToken`
are the ciphertexts of these two calls. -/
theorem CredentialsConfig_encrypts_access_and_refresh (t : oAuth2Token σ) (ctx : Context)
    (c : Cipher σ) (w : World σ) (tok : Token) (htok : t.token = some tok) :
    ((idTokenStep tok ctx c w).1.2 = none →
      ∃ evs, (t.CredentialsConfig ctx c w).2.2.trace =
          (idTokenStep tok ctx c w).2.trace ++
            Event.encrypt (bytes tok.AccessToken)
              (c.Encrypt ctx (bytes tok.AccessToken) (idTokenStep tok ctx c w).2.state).1 ::
            evs ∧
        ((c.Encrypt ctx (bytes tok.AccessToken) (idTokenStep tok ctx c w).2.state).1.2 = none →
          ∃ evs2, evs =
            Event.encrypt (bytes tok.RefreshToken)
              (c.Encrypt ctx (bytes tok.RefreshToken)
                (c.Encrypt ctx (bytes tok.AccessToken)
                  (idTokenStep tok ctx c w).2.state).2).1 :: evs2)) ∧
    (tok.RefreshToken = "" → bytes tok.RefreshToken = []) ∧
    (∀ b e, (t.CredentialsConfig ctx c w).1 = .ok (some b, e) →
      b.InitialAccessToken =
        (c.Encrypt ctx (bytes tok.AccessToken) (idTokenStep tok ctx c w).2.state).1.1 ∧
      b.InitialRefreshToken =
        (c.Encrypt ctx (bytes tok.RefreshToken)
          (c.Encrypt ctx (bytes tok.AccessToken) (idTokenStep tok ctx c w).2.state).2).1.1) := by
  refine ⟨?_, ?_, ?_⟩
  · intro h1
    have hev := CredentialsConfig_trace t ctx c w
    simp only [credentialsConfigEvents, htok, h1] at hev
    rw [← List.append_assoc, ← idTokenStep_trace] at hev
    refine ⟨_, hev, ?_⟩
    intro h2
    have h2' : (accessStep tok ctx c w).1.2 = none := h2
    rw [h2']
    exact ⟨_, rfl⟩
  · intro h
    rw [h]
    rfl
  · intro b e h
    obtain ⟨-, -, -, -, -, cl, -, hb⟩ := CredentialsConfig_bundle_inv t ctx c w tok htok b e h
    rw [hb]
    exact ⟨rfl, rfl⟩

/-- C7 on a token whose refresh token is empty: the cipher is called on the empty
plaintext and its answer is the bundle's `InitialRefreshToken`. -/
theorem CredentialsConfig_encrypts_access_and_refresh_witness :
    ((issued (flakyProvider 0) sampleToken).CredentialsConfig ⟨0⟩ lengthCipher
        freshWorld).2.2.trace =
      [Event.encrypt [105, 100, 116] ("enc3", none), Event.encrypt [97, 116] ("enc2", none),
        Event.encrypt [] ("enc0", none),
        Event.providerClaims (some sampleToken) (some aliceClaims, none)] ∧
    (∃ evs, ((issued (flakyProvider 0) sampleToken).CredentialsConfig ⟨0⟩ lengthCipher
          freshWorld).2.2.trace =
        [Event.encrypt [105, 100, 116] ("enc3", none)] ++
          Event.encrypt [97, 116] ("enc2", none) :: evs ∧
      ((none : Option Error) = none → ∃ evs2, evs = Event.encrypt [] ("enc0", none) :: evs2)) ∧
    (ProviderCredentialsConfig.mk "alice" "enc2" "enc0" "enc3").InitialAccessToken =
      (lengthCipher.Encrypt ⟨0⟩ (bytes sampleToken.AccessToken) 0).1.1 ∧
    (ProviderCredentialsConfig.mk "alice" "enc2" "enc0" "enc3").InitialRefreshToken =
      (lengthCipher.Encrypt ⟨0⟩ (bytes sampleToken.RefreshToken) 0).1.1 :=
  ⟨by decide,
    (CredentialsConfig_encrypts_access_and_refresh (issued (flakyProvider 0) sampleToken) ⟨0⟩
      lengthCipher freshWorld sampleToken rfl).1 rfl,
    (CredentialsConfig_encrypts_access_and_refresh (issued (flakyProvider 0) sampleToken) ⟨0⟩
      lengthCipher freshWorld sampleToken rfl).2.2 ⟨"alice", "enc2", "enc0", "enc3"⟩ none rfl⟩

/-! ## Callback error check -/

/-- The format of `checkOAuth2Error` puts its two operands, unchanged, after the
fixed text and after the closing quote. -/
theorem sprintf_oAuth2ErrorFormat (E D : String) :
    Sprintf oAuth2ErrorFormat [E, D] = reasonHead ++ E ++ "\": " ++ D := by
  apply String.ext
  simp [Sprintf, oAuth2ErrorFormat, sprintfAux, reasonHead]

/-- What `checkOAuth2Error` returns in each of its two branches. -/
theorem checkOAuth2Error_eq (ctx : Context) (r : Request) :
    checkOAuth2Error ctx r =
      if r.URL.Query.Get "error" = "" then none
      else some (Error.withStack (Error.herodot
        { ErrBadRequest with
          ReasonField := reasonHead ++ r.URL.Query.Get "error" ++ "\": " ++
            r.URL.Query.Get "error_description" })) := by
  unfold checkOAuth2Error
  split
  · rfl
  · simp [WithStack, DefaultError.WithReasonf, sprintf_oAuth2ErrorFormat]

/-- C8, as stated, fails: the query `?error=` has the key `error`, with the empty
value, and `checkOAuth2Error` returns nil for it. -/
theorem checkOAuth2Error_empty_error_value :
    (Request.mk ⟨⟨[("error", [""])]⟩⟩).URL.Query.Has "error" ∧
      checkOAuth2Error ⟨0⟩ (Request.mk ⟨⟨[("error", [""])]⟩⟩) = none := by
  refine ⟨⟨[""], ?_⟩, ?_⟩
  · simp [URL.Query]
  · decide

/-- C8, amended: `checkOAuth2Error` fails (returns a non-nil error) exactly when the
first value of the `error` query parameter is not the empty string. -/
theorem checkOAuth2Error_fails_iff (ctx : Context) (r : Request) :
    checkOAuth2Error ctx r ≠ none ↔ r.URL.Query.Get "error" ≠ "" := by
  rw [checkOAuth2Error_eq]
  split <;> simp_all

/-- C9: whenever `checkOAuth2Error` fails, the reason of its error is the fixed
text followed by the first value of `error` in double quotes, a colon, a blank and
the first value of `error_description`, both unchanged; and when the first value of
`error` is `access_denied` it fails with a reason that contains `access_denied`. -/
theorem checkOAuth2Error_reason (ctx : Context) (r : Request) :
    (∀ e, checkOAuth2Error ctx r = some e →
      e.Reason =
        "Unable to complete OpenID Connect flow because the OpenID Provider returned error \""
          ++ r.URL.Query.Get "error" ++ "\": " ++ r.URL.Query.Get "error_description") ∧
    (r.URL.Query.Get "error" = "access_denied" →
      ∃ e, checkOAuth2Error ctx r = some e ∧ "access_denied".data <:+: e.Reason.data) := by
  constructor
  · intro e he
    rw [checkOAuth2Error_eq] at he
    split at he
    · simp at he
    · simp only [Option.some.injEq] at he
      subst he
      rfl
  · intro hE
    rw [checkOAuth2Error_eq, hE]
    refine ⟨_, by simp; rfl, ?_⟩
    simp only [Error.Reason]
    refine ⟨reasonHead.data, ("\": " ++ r.URL.Query.Get "error_description").data, ?_⟩
    simp [String.append_assoc]

/-- C9 at the query `?error=access_denied&error_description=user+said+no`. -/
theorem checkOAuth2Error_reason_witness :
    (checkOAuth2Error ⟨0⟩ (Request.mk ⟨⟨[("error", ["access_denied"]),
        ("error_description", ["user said no"])]⟩⟩)).map Error.Reason =
      some ("Unable to complete OpenID Connect flow because the OpenID Provider " ++
        "returned error \"access_denied\": user said no") ∧
    ∃ e, checkOAuth2Error ⟨0⟩ (Request.mk ⟨⟨[("error", ["access_denied"]),
        ("error_description", ["user said no"])]⟩⟩) = some e ∧
      "access_denied".data <:+: e.Reason.data :=
  ⟨by decide,
   (checkOAuth2Error_reason ⟨0⟩ (Request.mk ⟨⟨[("error", ["access_denied"]),
      ("error_description", ["user said no"])]⟩⟩)).2 (by decide)⟩

/-- C10: a request whose query has no `error` key passes `checkOAuth2Error`
(the result is nil), whatever other parameters it has. -/
theorem checkOAuth2Error_no_error_key (ctx : Context) (r : Request)
    (h : ¬ r.URL.Query.Has "error") : checkOAuth2Error ctx r = none := by
  rw [checkOAuth2Error_eq, Values.Get_of_not_Has _ _ h]
  simp

/-- C10 at the query `?error_description=ignored&code=abc`. -/
theorem checkOAuth2Error_no_error_key_witness :
    ¬ (Request.mk ⟨⟨[("error_description", ["ignored"]), ("code", ["abc"])]⟩⟩).URL.Query.Has
        "error" ∧
      checkOAuth2Error ⟨0⟩
        (Request.mk ⟨⟨[("error_description", ["ignored"]), ("code", ["abc"])]⟩⟩) = none :=
  ⟨by simp [Values.Has, URL.Query],
   checkOAuth2Error_no_error_key ⟨0⟩ _ (by simp [Values.Has, URL.Query])⟩

/-! ## The authorization URL -/

/-- An unreserved character is one byte, which is written as it is. -/
theorem escape_unreservedChar (c : Char) (h : unreservedChar c = true) :
    (String.utf8EncodeChar c).flatMap escapeByte = [c] := by
  have hlt : c.toNat < 128 := by
    simp only [unreservedChar, Bool.or_eq_true, Bool.and_eq_true, decide_eq_true_eq] at h
    omega
  have hv : c.val ≤ 0x7f := by
    show c.val.toNat ≤ 127
    have : c.val.toNat = c.toNat := rfl
    omega
  have henc : String.utf8EncodeChar c = [c.val.toUInt8] := by
    simp [String.utf8EncodeChar, hv]
  have hn : c.val.toUInt8.toNat = c.toNat := by
    show (UInt8.ofNat c.val.toNat).toNat = c.toNat
    have : c.val.toNat = c.toNat := rfl
    rw [this]
    show c.toNat % 256 = c.toNat
    omega
  simp only [unreservedChar, Bool.or_eq_true, Bool.and_eq_true, decide_eq_true_eq] at h
  have hse : shouldEscape c.val.toUInt8 = false := by
    unfold shouldEscape
    rw [hn]
    split
    · rfl
    · split
      · rfl
      · exfalso
        omega
  have h32 : c.toNat ≠ 32 := by omega
  rw [henc]
  simp [escapeByte, hn, hse, h32, Char.ofNat_toNat]

/-- A list of unreserved characters is written as it is. -/
theorem escape_unreserved_list (l : List Char) (h : ∀ c ∈ l, unreservedChar c = true) :
    (l.flatMap fun c => String.utf8EncodeChar c).flatMap escapeByte = l := by
  induction l with
  | nil => rfl
  | cons c cs ih =>
    rw [List.flatMap_cons, List.flatMap_append, escape_unreservedChar c (h c (by simp)),
      ih (fun d hd => h d (by simp [hd]))]
    rfl

/-- `QueryEscape` leaves a string of unreserved characters as it is. -/
theorem QueryEscape_unreserved (s : String) (h : ∀ c ∈ s.data, unreservedChar c = true) :
    QueryEscape s = s := by
  apply String.ext
  exact escape_unreserved_list s.data h

/-- Removing the entries of one key leaves the entry of another key. -/
theorem lookup_filter_ne {β : Type} (k key : String) (l : List (String × β)) (h : k ≠ key) :
    (l.filter fun p => p.1 ≠ key).lookup k = l.lookup k := by
  induction l with
  | nil => rfl
  | cons p ps ih =>
    obtain ⟨a, b⟩ := p
    by_cases ha : a = key
    · subst ha
      have hb : (k == a) = false := by simpa using h
      simpa [List.filter_cons, List.lookup, hb] using ih
    · by_cases hk : k = a
      · subst hk
        simp [List.filter_cons, ha, List.lookup]
      · have hb : (k == a) = false := by simpa using hk
        simpa [List.filter_cons, ha, List.lookup, hb] using ih

/-- After `Set` the key has the one value. -/
theorem Values.lookup_Set_self (v : Values) (key value : String) :
    (v.Set key value).entries.lookup key = some [value] := by
  simp [Values.Set, List.lookup]

/-- `Set` leaves the other keys alone. -/
theorem Values.lookup_Set_ne (v : Values) (k key value : String) (h : k ≠ key) :
    (v.Set key value).entries.lookup k = v.entries.lookup k := by
  have hb : (k == key) = false := by simpa using h
  simp only [Values.Set, List.lookup, hb]
  exact lookup_filter_ne k key v.entries h

/-- Options for other parameters leave the entry of a key alone. -/
theorem lookup_foldl_setValue (opts : List AuthCodeOption) (v : Values) (k : String)
    (h : ∀ o ∈ opts, o.k ≠ k) :
    (opts.foldl (fun v opt => opt.setValue v) v).entries.lookup k = v.entries.lookup k := by
  induction opts generalizing v with
  | nil => rfl
  | cons o os ih =>
    rw [List.foldl_cons, ih _ (fun p hp => h p (by simp [hp]))]
    exact Values.lookup_Set_ne v k o.k o.v (fun hk => h o (by simp) hk.symm)

/-- A loop whose body only appends to the buffer only appends to the buffer. -/
theorem prefix_foldl {α : Type} (f : String → α → String)
    (hf : ∀ b a, b.data <+: (f b a).data) (l : List α) (b : String) :
    b.data <+: (l.foldl f b).data := by
  induction l generalizing b with
  | nil => exact List.prefix_refl _
  | cons a as ih => exact (hf b a).trans (ih (f b a))

/-- What the body of an appending loop writes for one element is in the final buffer. -/
theorem infix_foldl {α : Type} (f : String → α → String)
    (hf : ∀ b a, b.data <+: (f b a).data) (piece : List Char) (a : α)
    (ha : ∀ b, piece <:+: (f b a).data) (l : List α) (hl : a ∈ l) (b : String) :
    piece <:+: (l.foldl f b).data := by
  induction l generalizing b with
  | nil => simp at hl
  | cons x xs ih =>
    rw [List.foldl_cons]
    rcases List.mem_cons.mp hl with rfl | hx
    · exact (ha b).trans (prefix_foldl f hf xs (f b a)).isInfix
    · exact ih hx (f b x)

/-- Writing a pair appends to the buffer. -/
theorem prefix_writePair (ke b x : String) :
    b.data <+: ((if b.length > 0 then b ++ "&" else b) ++ ke ++ "=" ++ QueryEscape x).data := by
  split
  · exact ⟨"&".data ++ ke.data ++ "=".data ++ (QueryEscape x).data, by simp [String.data_append]⟩
  · exact ⟨ke.data ++ "=".data ++ (QueryEscape x).data, by simp [String.data_append]⟩

/-- Writing a pair writes the escaped key, the equals sign and the escaped value. -/
theorem infix_writePair (ke b x : String) :
    (ke ++ "=" ++ QueryEscape x).data <:+:
      ((if b.length > 0 then b ++ "&" else b) ++ ke ++ "=" ++ QueryEscape x).data := by
  refine ⟨(if b.length > 0 then b ++ "&" else b).data, [], ?_⟩
  simp [String.data_append]

/-- A pair of the map is written by `Encode`. -/
theorem Values.infix_Encode (v : Values) (k x : String) (vs : List String)
    (hk : v.entries.lookup k = some vs) (hx : x ∈ vs) :
    (QueryEscape k ++ "=" ++ QueryEscape x).data <:+: v.Encode.data := by
  have hmem : (k, vs) ∈ v.entries := mem_of_lookup_eq_some k _ vs hk
  have hlen : ¬ v.entries.length = 0 := by
    intro h0
    rw [List.length_eq_zero] at h0
    rw [h0] at hmem
    simp at hmem
  have hkeys : k ∈ ((v.entries.map Prod.fst).dedup).insertionSort
      fun a b => stringLE a b = true := by
    rw [List.mem_insertionSort, List.mem_dedup]
    exact List.mem_map.mpr ⟨(k, vs), hmem, rfl⟩
  unfold Values.Encode
  rw [if_neg hlen]
  simp only
  refine infix_foldl _ ?_ _ k ?_ _ hkeys ""
  · intro b a
    exact prefix_foldl _ (fun b' x' => prefix_writePair _ b' x') _ b
  · intro b
    rw [hk]
    exact infix_foldl _ (fun b' x' => prefix_writePair _ b' x') _ x
      (fun b' => infix_writePair _ b' x) vs hx b

/-- The URL of `AuthCodeURL` starts with the authorization endpoint. -/
theorem Config.prefix_AuthCodeURL (c : Config σ) (state : String) (opts : List AuthCodeOption) :
    c.AuthURL.data <+: (c.AuthCodeURL state opts).data := by
  unfold Config.AuthCodeURL
  simp only [String.data_append, List.append_assoc]
  exact List.prefix_append _ _

/-- The URL of `AuthCodeURL` ends with the encoded parameters, among which a state that
is not empty is found escaped unless an option sets the parameter `state`. -/
theorem Config.infix_AuthCodeURL_state (c : Config σ) (state : String)
    (opts : List AuthCodeOption) (hs : state ≠ "") (ho : ∀ o ∈ opts, o.k ≠ "state") :
    ("state=" ++ QueryEscape state).data <:+: (c.AuthCodeURL state opts).data := by
  have hq : QueryEscape "state" = "state" := by decide
  unfold Config.AuthCodeURL
  simp only [if_pos hs]
  generalize (ite (c.Scopes.length > 0) _ _ : Values) = v2
  have hl := lookup_foldl_setValue opts (v2.Set "state" state) "state" ho
  rw [Values.lookup_Set_self] at hl
  have hin := Values.infix_Encode _ "state" state [state] hl (by simp)
  rw [hq] at hin
  refine hin.trans ?_
  simp only [String.data_append]
  exact (List.suffix_append _ _).isInfix

/-! ## The paths through `oAuth2CodeURL` and `parseOAuth2Token` -/

/-- A call to the provider's `OAuth2` adds one event to the trace. -/
theorem callOAuth2_trace (op : oAuth2Provider σ) (ctx : Context) (w : World σ) :
    (op.callOAuth2 ctx w).2.trace =
      w.trace ++ [Event.providerOAuth2 (op.OAuth2 ctx w.state).1.2] := rfl

/-- The path of `oAuth2CodeURL` on which the provider has no client configuration. -/
theorem oAuth2CodeURL_err (ctx : Context) (state : String) (op : oAuth2Provider σ)
    (opts : List AuthCodeOption) (w : World σ) (e : Error)
    (h : (op.OAuth2 ctx w.state).1.2 = some e) :
    oAuth2CodeURL ctx state op opts w = (.ok ("", some e), (op.callOAuth2 ctx w).2) := by
  simp [oAuth2CodeURL, oAuth2Provider.callOAuth2, h]

/-- The path of `oAuth2CodeURL` on which the provider has a client configuration. -/
theorem oAuth2CodeURL_ok (ctx : Context) (state : String) (op : oAuth2Provider σ)
    (opts : List AuthCodeOption) (w : World σ) (cfg : Config σ)
    (h : (op.OAuth2 ctx w.state).1 = (some cfg, none)) :
    oAuth2CodeURL ctx state op opts w =
      (.ok (cfg.AuthCodeURL state opts, none), (op.callOAuth2 ctx w).2) := by
  simp [oAuth2CodeURL, oAuth2Provider.callOAuth2, h]

/-- The path of `parseOAuth2Token` on which the provider has no client configuration. -/
theorem parseOAuth2Token_config_err (ctx : Context) (op : oAuth2Provider σ) (req : Request)
    (w : World σ) (e : Error) (h : (op.OAuth2 ctx w.state).1.2 = some e) :
    parseOAuth2Token ctx op req w = (.ok (none, some e), (op.callOAuth2 ctx w).2) := by
  simp [parseOAuth2Token, oAuth2Provider.callOAuth2, h]

/-- The path of `parseOAuth2Token` on which the exchange fails. -/
theorem parseOAuth2Token_exchange_err (ctx : Context) (op : oAuth2Provider σ) (req : Request)
    (w : World σ) (cfg : Config σ) (e : Error)
    (h : (op.OAuth2 ctx w.state).1 = (some cfg, none))
    (hx : (cfg.Exchange ctx (req.URL.Query.Get "code") (op.OAuth2 ctx w.state).2).1.2 = some e) :
    parseOAuth2Token ctx op req w =
      (.ok (none, some e),
        (cfg.callExchange ctx (req.URL.Query.Get "code") (op.callOAuth2 ctx w).2).2) := by
  simp [parseOAuth2Token, oAuth2Provider.callOAuth2, Config.callExchange, h, hx]

/-- The path of `parseOAuth2Token` on which the exchange succeeds. -/
theorem parseOAuth2Token_exchange_ok (ctx : Context) (op : oAuth2Provider σ) (req : Request)
    (w : World σ) (cfg : Config σ) (h : (op.OAuth2 ctx w.state).1 = (some cfg, none))
    (hx : (cfg.Exchange ctx (req.URL.Query.Get "code") (op.OAuth2 ctx w.state).2).1.2 = none) :
    parseOAuth2Token ctx op req w =
      (.ok (some { op := op
                   token := (cfg.Exchange ctx (req.URL.Query.Get "code")
                     (op.OAuth2 ctx w.state).2).1.1
                   claims := none }, none),
        (cfg.callExchange ctx (req.URL.Query.Get "code") (op.callOAuth2 ctx w).2).2) := by
  simp [parseOAuth2Token, oAuth2Provider.callOAuth2, Config.callExchange, h, hx]

/-- The trace of `parseOAuth2Token` when the provider has a client configuration. -/
theorem parseOAuth2Token_trace (ctx : Context) (op : oAuth2Provider σ) (req : Request)
    (w : World σ) (cfg : Config σ) (h : (op.OAuth2 ctx w.state).1 = (some cfg, none)) :
    (parseOAuth2Token ctx op req w).2.trace =
      w.trace ++ [Event.providerOAuth2 none,
        Event.exchange (req.URL.Query.Get "code")
          (cfg.Exchange ctx (req.URL.Query.Get "code") (op.OAuth2 ctx w.state).2).1] := by
  rcases hx : (cfg.Exchange ctx (req.URL.Query.Get "code") (op.OAuth2 ctx w.state).2).1.2
    with _ | e
  · rw [parseOAuth2Token_exchange_ok ctx op req w cfg h hx]
    simp [Config.callExchange, oAuth2Provider.callOAuth2, h]
  · rw [parseOAuth2Token_exchange_err ctx op req w cfg e h hx]
    simp [Config.callExchange, oAuth2Provider.callOAuth2, h]

/-! ## The claims about the authorization URL and the exchange -/

/-- C11: when the provider's `OAuth2` answers the error `e`, `oAuth2CodeURL` returns the
empty URL and `e`, and `parseOAuth2Token` returns no token and `e`, having called
nothing but `OAuth2`: the exchange is not called. -/
theorem OAuth2_error_returned (ctx : Context) (state : String) (op : oAuth2Provider σ)
    (opts : List AuthCodeOption) (req : Request) (w : World σ) (e : Error)
    (h : (op.OAuth2 ctx w.state).1.2 = some e) :
    (oAuth2CodeURL ctx state op opts w).1 = .ok ("", some e) ∧
    (parseOAuth2Token ctx op req w).1 = .ok (none, some e) ∧
    (parseOAuth2Token ctx op req w).2.trace = w.trace ++ [Event.providerOAuth2 (some e)] := by
  rw [oAuth2CodeURL_err ctx state op opts w e h, parseOAuth2Token_config_err ctx op req w e h,
    callOAuth2_trace, h]
  exact ⟨rfl, rfl, rfl⟩

/-- C11 on a provider without client configuration. -/
theorem OAuth2_error_returned_witness :
    (oAuth2CodeURL ⟨0⟩ "xyz" (flakyProvider 0) [] freshWorld).1 =
      .ok ("", some (Error.external "no client configuration")) ∧
    (parseOAuth2Token ⟨0⟩ (flakyProvider 0)
      (Request.mk ⟨⟨[("code", ["good"])]⟩⟩) freshWorld).1 =
      .ok (none, some (Error.external "no client configuration")) ∧
    (parseOAuth2Token ⟨0⟩ (flakyProvider 0)
      (Request.mk ⟨⟨[("code", ["good"])]⟩⟩) freshWorld).2.trace =
      freshWorld.trace ++
        [Event.providerOAuth2 (some (Error.external "no client configuration"))] :=
  OAuth2_error_returned ⟨0⟩ "xyz" (flakyProvider 0) [] (Request.mk ⟨⟨[("code", ["good"])]⟩⟩)
    freshWorld (Error.external "no client configuration") rfl

/-- C12: when the provider has the client configuration `cfg`, `parseOAuth2Token` calls
the exchange with the first value of the query parameter `code`, which is the empty
string when the parameter is absent; the exchange's error is returned with no token,
and on success the result is the token made of the provider, the raw token the
exchange answered, and an unset cache. -/
theorem parseOAuth2Token_passes_code (ctx : Context) (op : oAuth2Provider σ) (req : Request)
    (w : World σ) (cfg : Config σ) (h : (op.OAuth2 ctx w.state).1 = (some cfg, none)) :
    (parseOAuth2Token ctx op req w).2.trace =
      w.trace ++ [Event.providerOAuth2 none,
        Event.exchange (req.URL.Query.Get "code")
          (cfg.Exchange ctx (req.URL.Query.Get "code") (op.OAuth2 ctx w.state).2).1] ∧
    (¬ req.URL.Query.Has "code" → req.URL.Query.Get "code" = "") ∧
    (∀ x xs, req.URL.Query.entries.lookup "code" = some (x :: xs) →
      req.URL.Query.Get "code" = x) ∧
    (∀ e, (cfg.Exchange ctx (req.URL.Query.Get "code") (op.OAuth2 ctx w.state).2).1.2 = some e →
      (parseOAuth2Token ctx op req w).1 = .ok (none, some e)) ∧
    ((cfg.Exchange ctx (req.URL.Query.Get "code") (op.OAuth2 ctx w.state).2).1.2 = none →
      (parseOAuth2Token ctx op req w).1 =
        .ok (some { op := op
                    token := (cfg.Exchange ctx (req.URL.Query.Get "code")
                      (op.OAuth2 ctx w.state).2).1.1
                    claims := none }, none)) := by
  refine ⟨parseOAuth2Token_trace ctx op req w cfg h, Values.Get_of_not_Has _ _, ?_, ?_, ?_⟩
  · intro x xs hl
    simp [Values.Get, hl]
  · intro e hx
    rw [parseOAuth2Token_exchange_err ctx op req w cfg e h hx]
  · intro hx
    rw [parseOAuth2Token_exchange_ok ctx op req w cfg h hx]

/-- C12 on a callback without `code`: the exchange is called with the empty code and
its error is returned; and on a callback with the code `good`. -/
theorem parseOAuth2Token_passes_code_witness :
    (parseOAuth2Token ⟨0⟩ configuredProvider (Request.mk ⟨⟨[("state", ["xyz"])]⟩⟩)
      freshWorld).2.trace =
      [Event.providerOAuth2 none,
        Event.exchange "" (none, some (Error.external "invalid_grant"))] ∧
    (parseOAuth2Token ⟨0⟩ configuredProvider (Request.mk ⟨⟨[("state", ["xyz"])]⟩⟩)
      freshWorld).1 = .ok (none, some (Error.external "invalid_grant")) ∧
    (parseOAuth2Token ⟨0⟩ configuredProvider (Request.mk ⟨⟨[("code", ["good", "bad"])]⟩⟩)
      freshWorld).1 =
      .ok (some { op := configuredProvider, token := some plainToken, claims := none }, none) :=
  ⟨(parseOAuth2Token_passes_code ⟨0⟩ configuredProvider (Request.mk ⟨⟨[("state", ["xyz"])]⟩⟩)
      freshWorld sampleConfig rfl).1,
    (parseOAuth2Token_passes_code ⟨0⟩ configuredProvider (Request.mk ⟨⟨[("state", ["xyz"])]⟩⟩)
      freshWorld sampleConfig rfl).2.2.2.1 (Error.external "invalid_grant") rfl,
    (parseOAuth2Token_passes_code ⟨0⟩ configuredProvider
      (Request.mk ⟨⟨[("code", ["good", "bad"])]⟩⟩) freshWorld sampleConfig rfl).2.2.2.2 rfl⟩

set_option maxRecDepth 8000 in
/-- C13, as stated, fails: for the state `a b` the URL has the state escaped, as `a+b`,
and does not contain `a b`. -/
theorem oAuth2CodeURL_escapes_state :
    (oAuth2CodeURL ⟨0⟩ "a b" configuredProvider [] freshWorld).1 =
      .ok ("https://idp.example/auth?client_id=kratos&response_type=code&state=a+b", none) ∧
    ¬ "a b".data <:+:
      "https://idp.example/auth?client_id=kratos&response_type=code&state=a+b".data := by
  constructor
  · rfl
  · decide

/-- C13, amended: when the provider has the client configuration `cfg`, `oAuth2CodeURL`
returns, with no error, the URL that `cfg.AuthCodeURL` makes of the state and the
options; the URL starts with the authorization endpoint of `cfg`; when no option sets
the parameter `state`, a state that is not empty is in the URL escaped, after
`state=`, and a state of unreserved characters is in the URL as it is. -/
theorem oAuth2CodeURL_url (ctx : Context) (state : String) (op : oAuth2Provider σ)
    (opts : List AuthCodeOption) (w : World σ) (cfg : Config σ)
    (h : (op.OAuth2 ctx w.state).1 = (some cfg, none)) :
    (oAuth2CodeURL ctx state op opts w).1 = .ok (cfg.AuthCodeURL state opts, none) ∧
    cfg.AuthURL.data <+: (cfg.AuthCodeURL state opts).data ∧
    (state ≠ "" → (∀ o ∈ opts, o.k ≠ "state") →
      ("state=" ++ QueryEscape state).data <:+: (cfg.AuthCodeURL state opts).data) ∧
    ((∀ ch ∈ state.data, unreservedChar ch = true) → (∀ o ∈ opts, o.k ≠ "state") →
      state.data <:+: (cfg.AuthCodeURL state opts).data) := by
  refine ⟨by rw [oAuth2CodeURL_ok ctx state op opts w cfg h], cfg.prefix_AuthCodeURL state opts,
    cfg.infix_AuthCodeURL_state state opts, ?_⟩
  intro hu ho
  by_cases hs : state = ""
  · rw [hs]
    exact ⟨[], (cfg.AuthCodeURL "" opts).data, by simp⟩
  · have hin := cfg.infix_AuthCodeURL_state state opts hs ho
    rw [QueryEscape_unreserved state hu] at hin
    refine List.IsInfix.trans ?_ hin
    exact ⟨"state=".data, [], by simp [String.data_append]⟩

/-- C13, amended, on the state `xyz-1` and an option for another parameter. -/
theorem oAuth2CodeURL_url_witness :
    (oAuth2CodeURL ⟨0⟩ "xyz-1" configuredProvider [⟨"access_type", "offline"⟩] freshWorld).1 =
      .ok ("https://idp.example/auth?access_type=offline&client_id=kratos" ++
        "&response_type=code&state=xyz-1", none) ∧
    "xyz-1".data <:+:
      (sampleConfig.AuthCodeURL "xyz-1" [⟨"access_type", "offline"⟩]).data ∧
    ("state=" ++ QueryEscape "a b").data <:+: (sampleConfig.AuthCodeURL "a b" []).data :=
  ⟨rfl,
    (oAuth2CodeURL_url ⟨0⟩ "xyz-1" configuredProvider [⟨"access_type", "offline"⟩] freshWorld
      sampleConfig rfl).2.2.2 (by decide) (by decide),
    (oAuth2CodeURL_url ⟨0⟩ "a b" configuredProvider [] freshWorld sampleConfig rfl).2.2.1
      (by decide) (by decide)⟩

/-- C17: when the provider has the client configuration `cfg`, `parseOAuth2Token` calls
the exchange exactly once, whether it succeeds or fails, and returns the error of a
failed exchange as it is. -/
theorem parseOAuth2Token_exchanges_once (ctx : Context) (op : oAuth2Provider σ)
    (req : Request) (w : World σ) (cfg : Config σ)
    (h : (op.OAuth2 ctx w.state).1 = (some cfg, none)) :
    ∃ evs, (parseOAuth2Token ctx op req w).2.trace = w.trace ++ evs ∧
      evs.countP Event.isExchange = 1 ∧
      ∀ e, (cfg.Exchange ctx (req.URL.Query.Get "code") (op.OAuth2 ctx w.state).2).1.2 = some e →
        (parseOAuth2Token ctx op req w).1 = .ok (none, some e) := by
  refine ⟨_, parseOAuth2Token_trace ctx op req w cfg h, ?_, ?_⟩
  · simp [Event.isExchange]
  · intro e hx
    rw [parseOAuth2Token_exchange_err ctx op req w cfg e h hx]

/-- C17 on an exchange that fails: one call, and its error is returned. -/
theorem parseOAuth2Token_exchanges_once_witness :
    (parseOAuth2Token ⟨0⟩ configuredProvider (Request.mk ⟨⟨[("code", ["stale"])]⟩⟩)
      freshWorld).2.trace.countP Event.isExchange = 1 ∧
    ∃ evs, (parseOAuth2Token ⟨0⟩ configuredProvider (Request.mk ⟨⟨[("code", ["stale"])]⟩⟩)
        freshWorld).2.trace = freshWorld.trace ++ evs ∧
      evs.countP Event.isExchange = 1 ∧
      ∀ e, (sampleConfig.Exchange ⟨0⟩
          ((Request.mk ⟨⟨[("code", ["stale"])]⟩⟩).URL.Query.Get "code")
          (configuredProvider.OAuth2 ⟨0⟩ freshWorld.state).2).1.2 = some e →
        (parseOAuth2Token ⟨0⟩ configuredProvider (Request.mk ⟨⟨[("code", ["stale"])]⟩⟩)
          freshWorld).1 = .ok (none, some e) :=
  ⟨by decide,
    parseOAuth2Token_exchanges_once ⟨0⟩ configuredProvider
      (Request.mk ⟨⟨[("code", ["stale"])]⟩⟩) freshWorld sampleConfig rfl⟩

/-! ## More claims about the issued token -/

/-- A call of `Claims` leaves the token as it was or fills the unset cache with the
claims value the provider answered without error. -/
theorem Claims_change (t : oAuth2Token σ) (ctx : Context) (w : World σ) :
    (t.Claims ctx w).2.1 = t ∨
      (t.claims = none ∧ ∃ cl, (t.Claims ctx w).2.1.claims = some cl ∧
        (t.op.Claims ctx t.token w.state).1 = (some cl, none)) := by
  rcases hc : t.claims with _ | c
  · rcases he : (t.op.Claims ctx t.token w.state).1.2 with _ | e
    · rw [Claims_uncached_ok t ctx w hc he]
      rcases hv : (t.op.Claims ctx t.token w.state).1.1 with _ | cl
      · left
        exact set_claims_none t hc
      · right
        exact ⟨rfl, cl, rfl, Prod.ext hv he⟩
    · rw [Claims_uncached_err t ctx w e hc he]
      exact Or.inl rfl
  · rw [Claims_cached t ctx w c hc]
    exact Or.inl rfl

/-- A call of `CredentialsConfig` leaves the token as it was or fills the unset cache
with a claims value the provider answered without error. -/
theorem CredentialsConfig_change (t : oAuth2Token σ) (ctx : Context) (c : Cipher σ)
    (w : World σ) :
    (t.CredentialsConfig ctx c w).2.1 = t ∨
      (t.claims = none ∧ ∃ cl, (t.CredentialsConfig ctx c w).2.1.claims = some cl ∧
        ∃ s, (t.op.Claims ctx t.token s).1 = (some cl, none)) := by
  rcases htok : t.token with _ | tok
  · rw [CredentialsConfig_nil_token t ctx c w htok]
    exact Or.inl rfl
  rcases CredentialsConfig_token t ctx c w tok htok with ⟨-, -, -, ht, -⟩ | ⟨-, ht, -⟩
  · rw [ht]
    rcases Claims_change t ctx (refreshStep tok ctx c w).2 with h | ⟨hn, cl, hcl, hp⟩
    · exact Or.inl h
    · refine Or.inr ⟨hn, cl, hcl, (refreshStep tok ctx c w).2.state, ?_⟩
      rw [← htok]
      exact hp
  · exact Or.inl ht

/-- C14: neither `Claims` nor `CredentialsConfig` changes the provider or the raw
token of an issued token; each leaves the token as it was or sets the unset cache to a
claims value the provider answered without error; and once the cache is set, no
sequence of calls of the two, with the world changing in between, changes the token. -/
theorem issued_token_state (t : oAuth2Token σ) (ctx : Context) (c : Cipher σ) (w : World σ) :
    ((t.Claims ctx w).2.1.op = t.op ∧ (t.Claims ctx w).2.1.token = t.token ∧
      ((t.Claims ctx w).2.1 = t ∨
        (t.claims = none ∧ ∃ cl, (t.Claims ctx w).2.1.claims = some cl ∧
          (t.op.Claims ctx t.token w.state).1 = (some cl, none)))) ∧
    ((t.CredentialsConfig ctx c w).2.1.op = t.op ∧
      (t.CredentialsConfig ctx c w).2.1.token = t.token ∧
      ((t.CredentialsConfig ctx c w).2.1 = t ∨
        (t.claims = none ∧ ∃ cl, (t.CredentialsConfig ctx c w).2.1.claims = some cl ∧
          ∃ s, (t.op.Claims ctx t.token s).1 = (some cl, none)))) ∧
    (∀ (xs : List (Step σ)) (w2 : World σ),
      (runSteps xs (t, w2)).1.op = t.op ∧ (runSteps xs (t, w2)).1.token = t.token ∧
      (t.claims ≠ none → (runSteps xs (t, w2)).1 = t)) := by
  refine ⟨⟨(Claims_step t ctx w).1, (Claims_step t ctx w).2.1, Claims_change t ctx w⟩, ⟨?_, ?_,
    CredentialsConfig_change t ctx c w⟩, ?_⟩
  · obtain ⟨_, _, h, _⟩ := Step.run_facts (Step.credentialsConfig ctx c) t w
    exact h
  · obtain ⟨_, _, _, h, _⟩ := Step.run_facts (Step.credentialsConfig ctx c) t w
    exact h
  · intro xs w2
    obtain ⟨_, _, hop, htk, hset, _⟩ := runSteps_facts xs t w2
    exact ⟨hop, htk, fun h => (hset h).1⟩

/-- C14 on a token whose cache is set: calls and changes of the world leave it as it
is; and on a fresh token, whose cache a call of `Claims` sets. -/
theorem issued_token_state_witness :
    (runSteps [Step.claims ⟨0⟩, Step.world (fun _ => 0), Step.credentialsConfig ⟨1⟩ lengthCipher]
      ({ issued (flakyProvider 1) plainToken with claims := some aliceClaims }, freshWorld)).1 =
      { issued (flakyProvider 1) plainToken with claims := some aliceClaims } ∧
    ((issued (flakyProvider 0) plainToken).Claims ⟨0⟩ freshWorld).2.1.claims =
      some aliceClaims :=
  ⟨((issued_token_state ({ issued (flakyProvider 1) plainToken with claims := some aliceClaims })
      ⟨0⟩ lengthCipher freshWorld).2.2
      [Step.claims ⟨0⟩, Step.world (fun _ => 0), Step.credentialsConfig ⟨1⟩ lengthCipher]
      freshWorld).2.2 (by simp),
    rfl⟩

/-- `Claims` calls nothing but the provider's claim resolution. -/
theorem claimsEvents_isProviderClaims (t : oAuth2Token σ) (ctx : Context) (w : World σ) :
    ∀ e ∈ claimsEvents t ctx w, e.isProviderClaims = true := by
  intro e he
  unfold claimsEvents at he
  split at he <;> simp at he
  subst he
  rfl

/-- The id_token step makes at most one call. -/
theorem idTokenEvents_length (tok : Token) (ctx : Context) (c : Cipher σ) (w : World σ) :
    (idTokenEvents tok ctx c w).length ≤ 1 := by
  unfold idTokenEvents
  split <;> simp

/-- C15: on a token whose raw token is `tok`, the calls that `CredentialsConfig` makes
are calls to the cipher followed by calls to the provider's claim resolution, never
the other way round; and when the encryption of the identity token, of the access
token or of the refresh token fails, the call leaves the token, its cache included, as
it was and makes no call to the provider's claim resolution. -/
theorem CredentialsConfig_cipher_failure (t : oAuth2Token σ) (ctx : Context) (c : Cipher σ)
    (w : World σ) (tok : Token) (htok : t.token = some tok) :
    (∃ encs rest, (t.CredentialsConfig ctx c w).2.2.trace = w.trace ++ encs ++ rest ∧
      (∀ e ∈ encs, e.isEncrypt = true) ∧ (∀ e ∈ rest, e.isProviderClaims = true)) ∧
    (((idTokenStep tok ctx c w).1.2 ≠ none ∨ (accessStep tok ctx c w).1.2 ≠ none ∨
        (refreshStep tok ctx c w).1.2 ≠ none) →
      (t.CredentialsConfig ctx c w).2.1 = t ∧
      ∃ evs, (t.CredentialsConfig ctx c w).2.2.trace = w.trace ++ evs ∧
        claimsInvocations evs = 0) := by
  rcases CredentialsConfig_token t ctx c w tok htok with ⟨h1, h2, h3, -, hev⟩ | ⟨-, ht, hev⟩
  · constructor
    · refine ⟨idTokenEvents tok ctx c w ++
          [Event.encrypt (bytes tok.AccessToken) (accessStep tok ctx c w).1,
            Event.encrypt (bytes tok.RefreshToken) (refreshStep tok ctx c w).1],
        claimsEvents t ctx (refreshStep tok ctx c w).2, ?_, ?_,
        claimsEvents_isProviderClaims t ctx _⟩
      · rw [CredentialsConfig_trace, hev]
        simp
      · intro e he
        simp only [List.mem_append, List.mem_cons, List.mem_nil_iff, or_false] at he
        rcases he with he | he | he
        · exact idTokenEvents_encrypt tok ctx c w e he
        · subst he; rfl
        · subst he; rfl
    · intro hf
      rcases hf with hf | hf | hf
      · exact absurd h1 hf
      · exact absurd h2 hf
      · exact absurd h3 hf
  · constructor
    · exact ⟨credentialsConfigEvents t ctx c w, [],
        by rw [CredentialsConfig_trace, List.append_nil], hev, by simp⟩
    · intro _
      exact ⟨ht, credentialsConfigEvents t ctx c w, CredentialsConfig_trace t ctx c w,
        claimsInvocations_of_encrypt _ hev⟩

/-- C15 on a cipher that refuses the empty refresh token: the provider is not called
and the cache stays unset. -/
theorem CredentialsConfig_cipher_failure_witness :
    ((issued (flakyProvider 0) sampleToken).CredentialsConfig ⟨0⟩ nonEmptyCipher
      freshWorld).2.1 = issued (flakyProvider 0) sampleToken ∧
    claimsInvocations ((issued (flakyProvider 0) sampleToken).CredentialsConfig ⟨0⟩
      nonEmptyCipher freshWorld).2.2.trace = 0 :=
  ⟨((CredentialsConfig_cipher_failure (issued (flakyProvider 0) sampleToken) ⟨0⟩ nonEmptyCipher
      freshWorld sampleToken rfl).2 (Or.inr (Or.inr (by decide)))).1,
    by decide⟩

/-- C16: on a token whose raw token is `tok`, `CredentialsConfig` calls, in this order,
the cipher on the identity token when it is a string, the cipher on the access token,
the cipher on the refresh token and the provider's claim resolution, stops at the
first of them that fails and returns its error; the cipher is called at most three
times. -/
theorem CredentialsConfig_order (t : oAuth2Token σ) (ctx : Context) (c : Cipher σ)
    (w : World σ) (tok : Token) (htok : t.token = some tok) :
    ((idTokenEvents tok ctx c w).length ≤ 1 ∧
      ∀ e ∈ idTokenEvents tok ctx c w, e.isEncrypt = true) ∧
    (∃ evs, (t.CredentialsConfig ctx c w).2.2.trace = w.trace ++ evs ∧
      evs.countP Event.isEncrypt ≤ 3) ∧
    (∀ err, (idTokenStep tok ctx c w).1.2 = some err →
      (t.CredentialsConfig ctx c w).1 = .ok (none, some err) ∧
      (t.CredentialsConfig ctx c w).2.2.trace = w.trace ++ idTokenEvents tok ctx c w) ∧
    (∀ err, (idTokenStep tok ctx c w).1.2 = none → (accessStep tok ctx c w).1.2 = some err →
      (t.CredentialsConfig ctx c w).1 = .ok (none, some err) ∧
      (t.CredentialsConfig ctx c w).2.2.trace =
        w.trace ++ idTokenEvents tok ctx c w ++
          [Event.encrypt (bytes tok.AccessToken) (accessStep tok ctx c w).1]) ∧
    (∀ err, (idTokenStep tok ctx c w).1.2 = none → (accessStep tok ctx c w).1.2 = none →
      (refreshStep tok ctx c w).1.2 = some err →
      (t.CredentialsConfig ctx c w).1 = .ok (none, some err) ∧
      (t.CredentialsConfig ctx c w).2.2.trace =
        w.trace ++ idTokenEvents tok ctx c w ++
          [Event.encrypt (bytes tok.AccessToken) (accessStep tok ctx c w).1,
            Event.encrypt (bytes tok.RefreshToken) (refreshStep tok ctx c w).1]) ∧
    ((idTokenStep tok ctx c w).1.2 = none → (accessStep tok ctx c w).1.2 = none →
      (refreshStep tok ctx c w).1.2 = none →
      (t.CredentialsConfig ctx c w).2.2.trace =
        w.trace ++ idTokenEvents tok ctx c w ++
          [Event.encrypt (bytes tok.AccessToken) (accessStep tok ctx c w).1,
            Event.encrypt (bytes tok.RefreshToken) (refreshStep tok ctx c w).1] ++
          claimsEvents t ctx (refreshStep tok ctx c w).2 ∧
      ∀ err, (claimsStep t tok ctx c w).1.2 = some err →
        (t.CredentialsConfig ctx c w).1 = .ok (none, some err)) := by
  have hid := idTokenEvents_encrypt tok ctx c w
  have hlen := idTokenEvents_length tok ctx c w
  have hcid : (idTokenEvents tok ctx c w).countP Event.isEncrypt ≤ 1 :=
    (List.countP_le_length _).trans hlen
  have hccl : (claimsEvents t ctx (refreshStep tok ctx c w).2).countP Event.isEncrypt = 0 := by
    rw [List.countP_eq_length_filter, filter_isEncrypt_claimsEvents]
    rfl
  have htr := CredentialsConfig_trace t ctx c w
  refine ⟨⟨hlen, hid⟩, ⟨credentialsConfigEvents t ctx c w, htr, ?_⟩, ?_, ?_, ?_, ?_⟩
  · simp only [credentialsConfigEvents, htok]
    rcases h1 : (idTokenStep tok ctx c w).1.2 with _ | e1
    · rcases h2 : (accessStep tok ctx c w).1.2 with _ | e2
      · rcases h3 : (refreshStep tok ctx c w).1.2 with _ | e3
        · simp only [List.countP_append, List.countP_cons, hccl, Event.isEncrypt]
          simp only [if_true]
          omega
        · simp only [List.countP_append, List.countP_cons, List.countP_nil, Event.isEncrypt]
          simp only [if_true]
          omega
      · simp only [List.countP_append, List.countP_cons, List.countP_nil, Event.isEncrypt]
        simp only [if_true]
        omega
    · simp only [List.countP_append, List.countP_nil]
      omega
  · intro err h1
    refine ⟨by rw [CredentialsConfig_idToken_err t ctx c w tok htok err h1], ?_⟩
    rw [htr]
    simp [credentialsConfigEvents, htok, h1]
  · intro err h1 h2
    refine ⟨by rw [CredentialsConfig_access_err t ctx c w tok htok err h1 h2], ?_⟩
    rw [htr]
    simp [credentialsConfigEvents, htok, h1, h2]
  · intro err h1 h2 h3
    refine ⟨by rw [CredentialsConfig_refresh_err t ctx c w tok htok err h1 h2 h3], ?_⟩
    rw [htr]
    simp [credentialsConfigEvents, htok, h1, h2, h3]
  · intro h1 h2 h3
    constructor
    · rw [htr]
      simp [credentialsConfigEvents, htok, h1, h2, h3]
    · intro err h4
      rw [CredentialsConfig_claims_err t ctx c w tok htok err h1 h2 h3 h4]

/-- C16 on a cipher that would refuse the identity token and the access token: the
error for the identity token is returned and the cipher is called once. -/
theorem CredentialsConfig_order_witness :
    (accessStep sampleToken ⟨0⟩ refusingCipher freshWorld).1.2 =
      some (Error.external "cipher: refused 2") ∧
    ((issued (flakyProvider 0) sampleToken).CredentialsConfig ⟨0⟩ refusingCipher
      freshWorld).1 = .ok (none, some (Error.external "cipher: refused 3")) ∧
    ((issued (flakyProvider 0) sampleToken).CredentialsConfig ⟨0⟩ refusingCipher
      freshWorld).2.2.trace =
      [Event.encrypt [105, 100, 116] ("", some (Error.external "cipher: refused 3"))] :=
  ⟨rfl,
    ((CredentialsConfig_order (issued (flakyProvider 0) sampleToken) ⟨0⟩ refusingCipher
      freshWorld sampleToken rfl).2.2.1 (Error.external "cipher: refused 3") rfl).1,
    by decide⟩

/-- C18: when the provider's claim resolution never answers nil claims without an
error, `Claims` returns a claims value whenever it returns no error, and
`CredentialsConfig`, on a token whose raw token is not nil, does not panic; and when
the cache is unset and the provider answers nil claims without an error, `Claims`
returns nil claims and no error and leaves the cache unset. -/
theorem Claims_non_nil (t : oAuth2Token σ) (ctx : Context) (w : World σ) :
    ((∀ ctx2 tok s, (t.op.Claims ctx2 tok s).1.2 = none → (t.op.Claims ctx2 tok s).1.1 ≠ none) →
      ((t.Claims ctx w).1.2 = none → (t.Claims ctx w).1.1 ≠ none) ∧
      (∀ (c : Cipher σ) (tok : Token), t.token = some tok →
        ∀ p, (t.CredentialsConfig ctx c w).1 ≠ .error p)) ∧
    (t.claims = none → (t.op.Claims ctx t.token w.state).1 = (none, none) →
      (t.Claims ctx w).1 = (none, none) ∧ (t.Claims ctx w).2.1.claims = none) := by
  constructor
  · intro hop
    have hcl : ∀ w2 : World σ, (t.Claims ctx w2).1.2 = none → (t.Claims ctx w2).1.1 ≠ none := by
      intro w2 hn
      rcases hc : t.claims with _ | c0
      · rcases he : (t.op.Claims ctx t.token w2.state).1.2 with _ | e
        · rw [Claims_uncached_ok t ctx w2 hc he]
          exact hop ctx t.token w2.state he
        · rw [Claims_uncached_err t ctx w2 e hc he] at hn
          simp at hn
      · rw [Claims_cached t ctx w2 c0 hc]
        simp
    refine ⟨hcl w, ?_⟩
    intro c tok htok p hp
    rcases h1 : (idTokenStep tok ctx c w).1.2 with _ | e1
    · rcases h2 : (accessStep tok ctx c w).1.2 with _ | e2
      · rcases h3 : (refreshStep tok ctx c w).1.2 with _ | e3
        · rcases h4 : (claimsStep t tok ctx c w).1.2 with _ | e4
          · rcases h5 : (claimsStep t tok ctx c w).1.1 with _ | cl
            · exact hcl (refreshStep tok ctx c w).2 h4 h5
            · rw [CredentialsConfig_bundle t ctx c w tok htok cl h1 h2 h3 h4 h5] at hp
              simp at hp
          · rw [CredentialsConfig_claims_err t ctx c w tok htok e4 h1 h2 h3 h4] at hp
            simp at hp
        · rw [CredentialsConfig_refresh_err t ctx c w tok htok e3 h1 h2 h3] at hp
          simp at hp
      · rw [CredentialsConfig_access_err t ctx c w tok htok e2 h1 h2] at hp
        simp at hp
    · rw [CredentialsConfig_idToken_err t ctx c w tok htok e1 h1] at hp
      simp at hp
  · intro hc hp
    have he : (t.op.Claims ctx t.token w.state).1.2 = none := by rw [hp]
    rw [Claims_uncached_ok t ctx w hc he, hp]
    exact ⟨rfl, rfl⟩

/-- C18 on a provider that always answers a claims value, and on one that answers nil
claims without an error: with the first `CredentialsConfig` does not panic, with the
second `Claims` returns nil and no error, the cache stays unset and
`CredentialsConfig` panics. -/
theorem Claims_non_nil_witness :
    (∀ p, ((issued (flakyProvider 0) plainToken).CredentialsConfig ⟨0⟩ lengthCipher
      freshWorld).1 ≠ .error p) ∧
    ((issued nilClaimsProvider plainToken).Claims ⟨0⟩ freshWorld).1 = (none, none) ∧
    ((issued nilClaimsProvider plainToken).Claims ⟨0⟩ freshWorld).2.1.claims = none ∧
    ((issued nilClaimsProvider plainToken).CredentialsConfig ⟨0⟩ lengthCipher freshWorld).1 =
      .error Panic.nilDereference :=
  ⟨((Claims_non_nil (issued (flakyProvider 0) plainToken) ⟨0⟩ freshWorld).1
      (by intro ctx2 tok s; simp [issued, flakyProvider])).2 lengthCipher plainToken rfl,
    ((Claims_non_nil (issued nilClaimsProvider plainToken) ⟨0⟩ freshWorld).2 rfl rfl).1,
    ((Claims_non_nil (issued nilClaimsProvider plainToken) ⟨0⟩ freshWorld).2 rfl rfl).2,
    rfl⟩

end oidc
